import Mathlib

/-!
# domain-tool-updater: change detection and notification pipeline

A shallow embedding of the Go program.  Each Go package is a namespace
(models, events, dnsquery, database, subscribers, updater for package main).

Conventions of the embedding:

* A Go string is a Lean String (valid UTF-8 text); a Go error value is
  `Option String` (none is nil, some msg is an error with that message).
* A function returning (*T, error) that only ever returns (nil, err) or
  (&v, nil) is embedded with result type `Except String T`.
* The outside world is an `Env` of oracles (DNS answers, WHOIS text, the
  clock, store faults, SMTP results, map iteration order) and a `World`
  holding the two database tables, a counter of oracle consultations and the
  ordered trace of externally visible calls.
* A Go panic ends the run: `Outcome.panicked`.
* Writes to standard output (fmt.Println, fmt.Printf) feed nothing back into
  the program and are not recorded; log lines are.
-/

namespace DomainToolUpdater

/-- A Go error value: none is nil. -/
abbrev GoError := Option String

/-! ## Package models -/

namespace models

/-- The struct models.DomainInfo; time.Time is a natural-number timestamp. -/
structure DomainInfo where
  Name : String
  Registrar : String
  State : String
  Tier : String
  TransferTo : String
  LastCheck : Nat
  Spf : String
  Dmarc : String
  Nameservers : String
  Status : Bool
  Whois : String
deriving DecidableEq, Repr, Inhabited

end models

/-! ## Package events -/

namespace events

/-- Go: type EventType string. -/
abbrev EventType := String

def EventTypeDmarc : EventType := "UPDATE_DMARC"
def EventTypeSpf : EventType := "UPDATE_SPF"
def EventTypeNameservers : EventType := "UPDATE_NAMESERVERS"

/-- Go: type EventAction string. -/
abbrev EventAction := String

def EventActionChange : EventAction := "ACTION_CHANGE"
def EventActionInsert : EventAction := "ACTION_INSERT"

/-- The struct events.Event. -/
structure Event where
  EventType : events.EventType
  EventAction : events.EventAction
  ExecuteTime : Nat
  DomainInfo : models.DomainInfo
  DomainInfoPrev : models.DomainInfo
deriving DecidableEq, Repr, Inhabited

def Event.GetEventType (e : Event) : events.EventType := e.EventType

def Event.GetDomainInfo (e : Event) : models.DomainInfo := e.DomainInfo

def Event.GetEventAction (e : Event) : events.EventAction := e.EventAction

end events

/-! ## Subscribers and the world -/

namespace subscribers

/-- The struct subscribers.SmtpSubscriber. -/
structure SmtpSubscriber where
  smtpHost : String
  smtpPort : Int
  smtpUser : String
  smtpPassword : String
  fromEmail : String
  toEmail : String
deriving DecidableEq, Repr, Inhabited

end subscribers

namespace updater

/-- An interface value of type Subscribers.  The only implementation in the
repository is the pointer type *SmtpSubscriber, so a value is an address
together with the struct it points to; Go's == on two such values compares
the pointers, which here is equality of the whole value (one address holds
one struct). -/
structure Subscribers where
  addr : Nat
  val : subscribers.SmtpSubscriber
deriving DecidableEq, Repr, Inhabited

end updater

/-- A DNS resource record as far as the program inspects it: its dynamic
type and, for NS and TXT, the payload read by the type switch. -/
inductive RR where
  | NS (Ns : String)
  | TXT (Txt : List String)
  | other (Rrtype : Nat)
deriving DecidableEq, Repr

/-- The constants dns.TypeNS and dns.TypeTXT. -/
def TypeNS : Nat := 2

def TypeTXT : Nat := 16

/-- One externally visible call, in the order the program makes them. -/
inductive Effect where
  | log (msg : String)
  | UpdateSPF (domainName spfRecord : String)
  | UpdateDMARC (domainName DmarcRecord : String)
  | UpdateNS (domainName nsRecord : String)
  | UpdateWhois (domainName whois : String)
  | InsertDomainHistory (domain : models.DomainInfo)
  | Notify (event : events.Event)
  | Update (subscriber : updater.Subscribers) (event : events.Event)
  | SendMail (addr user password host sender : String) (recipients : List String) (msg : String)
deriving DecidableEq, Repr

/-- The two tables, each in the order a scan returns its rows; a row inserted
later comes later. -/
structure Store where
  domain_info : List models.DomainInfo
  domain_info_history : List models.DomainInfo
deriving DecidableEq, Repr

/-- The oracles: everything the program reads from outside.  The oracles
indexed by a natural number are asked at the current value of World.tick. -/
structure Env where
  /-- the reading of the clock (time.Now in Go, NOW in SQL) -/
  clock : Nat → Nat
  /-- whether a statement sent to the database fails, and with what error -/
  storeFault : Nat → GoError
  /-- the answer section (or the error) of a DNS query for a name and type -/
  dnsQueryImpl : String → Nat → Except String (List RR)
  /-- the result of net.LookupTXT -/
  lookupTXTImpl : String → Except String (List String)
  /-- the result of whois.Whois -/
  whois : String → Except String String
  /-- the order in which a range statement visits the entries of a map -/
  mapRange : Nat → List (String × String) → List (String × String)
  /-- the result of smtp.SendMail for an address, sender, recipients and body -/
  sendMail : Nat → String → String → List String → String → GoError

/-- The state threaded through the program. -/
structure World where
  db : Store
  tick : Nat
  trace : List Effect
deriving DecidableEq, Repr

/-- Advance the oracle counter. -/
def World.next (w : World) : World := { w with tick := w.tick + 1 }

/-- Record one call at the end of the trace. -/
def World.emit (w : World) (e : Effect) : World := { w with trace := w.trace ++ [e] }

/-- How a run ends: normally, or by a Go panic with its message (the world is
the one reached when the panic was raised). -/
inductive Outcome where
  | done (w : World)
  | panicked (msg : String) (w : World)
deriving DecidableEq, Repr

def Outcome.world : Outcome → World
  | Outcome.done w => w
  | Outcome.panicked _ w => w

def Outcome.isDone : Outcome → Bool
  | Outcome.done _ => true
  | Outcome.panicked _ _ => false

/-! ## Go library functions used by the program -/

/-- Go: strings.HasPrefix. -/
def stringsHasPrefix (s pre : String) : Bool := pre.data.isPrefixOf s.data

/-- Go: strings.Join. -/
def stringsJoin : List String → String → String
  | [], _ => ""
  | [a], _ => a
  | a :: b :: rest, sep => a ++ sep ++ stringsJoin (b :: rest) sep

/-- Go: the text fmt.Println and log.Println build from string operands, a
blank between every two operands (the final newline is left out). -/
def Sprintln (operands : List String) : String := stringsJoin operands " "

/-- Go: unicode.IsSpace. -/
def unicodeIsSpace (c : Char) : Bool :=
  c = '\t' || c = '\n' || c.toNat = 0x0B || c.toNat = 0x0C || c = '\r' || c = ' ' ||
  c.toNat = 0x85 || c.toNat = 0xA0 || c.toNat = 0x1680 ||
  (0x2000 ≤ c.toNat && c.toNat ≤ 0x200A) ||
  c.toNat = 0x2028 || c.toNat = 0x2029 || c.toNat = 0x202F || c.toNat = 0x205F ||
  c.toNat = 0x3000

/-- Go: strings.TrimSpace. -/
def stringsTrimSpace (s : String) : String :=
  String.mk (((s.data.dropWhile unicodeIsSpace).reverse.dropWhile unicodeIsSpace).reverse)

/-- The regexp class \s of Go (RE2): tab, newline, form feed, carriage
return, blank. -/
def reSpace (c : Char) : Bool :=
  c = '\t' || c = '\n' || c.toNat = 0x0C || c = '\r' || c = ' '

/-- The text after the leftmost occurrence of a literal, if there is one. -/
def afterLiteral (lit : List Char) : List Char → Option (List Char)
  | [] => if lit = [] then some [] else none
  | c :: cs =>
    if lit.isPrefixOf (c :: cs) then some ((c :: cs).drop lit.length)
    else afterLiteral lit cs

/-- Go: regexp.MustCompile(lit + "\s*(.*)").FindStringSubmatch(text), for a
literal lit without metacharacters: none when there is no match, otherwise
the first submatch match[1].  The leftmost match starts at the leftmost
occurrence of the literal; the greedy \s* takes the whole run of white space
(newlines included) and the greedy .* the rest of the line. -/
def FindStringSubmatch (lit : String) (text : String) : Option String :=
  (afterLiteral lit.data text.data).map
    (fun rest => String.mk ((rest.dropWhile reSpace).takeWhile (fun c => c != '\n')))

/-- Go: the current time; time.Now in the program and NOW in a statement both
read the clock oracle. -/
def timeNow (env : Env) (w : World) : Nat × World := (env.clock w.tick, w.next)

/-! ## Package dnsquery -/

namespace dnsquery

def DNSQuery (env : Env) (domain : String) (qtype : Nat) : Except String (List RR) :=
  env.dnsQueryImpl domain qtype

def GetTXTRecords (env : Env) (domain : String) : Except String (List String) :=
  env.lookupTXTImpl domain

/-- GetNSRecords: the Ns field of every answer record whose dynamic type is
*dns.NS, in answer order. -/
def GetNSRecords (env : Env) (domain : String) : Except String (List String) :=
  match DNSQuery env domain TypeNS with
  | Except.error err => Except.error err
  | Except.ok records =>
    Except.ok (records.filterMap (fun record =>
      match record with
      | RR.NS ns => some ns
      | _ => none))

/-- GetDMARCRecord, result (string, error). -/
def GetDMARCRecord (env : Env) (domain : String) : String × GoError :=
  let dmarcDomain := "_dmarc." ++ domain
  match GetTXTRecords env dmarcDomain with
  | Except.error err => ("", some err)
  | Except.ok records =>
    match records.find? (fun record => stringsHasPrefix record "v=DMARC1") with
    | some record => (record, none)
    | none => ("", some ("no DMARC record found for " ++ domain))

/-- GetSPFRecord, result (string, error). -/
def GetSPFRecord (env : Env) (domain : String) : String × GoError :=
  match GetTXTRecords env domain with
  | Except.error err => ("", some err)
  | Except.ok records =>
    match records.find? (fun record => stringsHasPrefix record "v=spf1") with
    | some record => (record, none)
    | none => ("", some ("no SPF record found for " ++ domain))

/-- GetDKIMRecord, result (string, error). -/
def GetDKIMRecord (env : Env) (domain selector : String) : String × GoError :=
  let dkimDomain := selector ++ "._domainkey." ++ domain
  match GetTXTRecords env dkimDomain with
  | Except.error err => ("", some err)
  | Except.ok records =>
    match records.find? (fun record => stringsHasPrefix record "v=DKIM1") with
    | some record => (record, none)
    | none =>
      ("", some ("no DKIM record found for " ++ domain ++ " with selector " ++ selector))

/-- The default whoisImpl: whois.Whois, with a log line on error. -/
def whoisImpl (env : Env) (domain : String) (w : World) : Except String String × World :=
  match env.whois domain with
  | Except.error err =>
    (Except.error err, w.emit (Effect.log (Sprintln ["Error fetching WHOIS information:", err])))
  | Except.ok result => (Except.ok result, w)

def GetWhois (env : Env) (domain : String) (w : World) : Except String String × World :=
  whoisImpl env domain w

/-- The loop over the expiry patterns: the first pattern that matches gives
the trimmed submatch and ends the loop; the empty string when none matches. -/
def firstExpiry (result : String) : List String → String
  | [] => ""
  | pattern :: rest =>
    match FindStringSubmatch pattern result with
    | some m => stringsTrimSpace m
    | none => firstExpiry result rest

/-- GetExpirationDate, result (string, error). -/
def GetExpirationDate (env : Env) (domain : String) (w : World) : (String × GoError) × World :=
  let patterns :=
    ["Registry Expiry Date:", "Registrar Registration Expiration Date:", "Expiration Date:"]
  let r := GetWhois env domain w
  match r.1 with
  | Except.error err => (("", some err), r.2)
  | Except.ok result => ((firstExpiry result patterns, none), r.2)

/-- GetAllDatesFromWhois.  A Go map[string]string is the list of its entries
(keys distinct); the empty list is the empty map. -/
def GetAllDatesFromWhois (env : Env) (domain : String) (w : World) :
    List (String × String) × World :=
  let r := GetWhois env domain w
  match r.1 with
  | Except.error _ => ([], r.2)
  | Except.ok result =>
    let creationDate :=
      match FindStringSubmatch "Creation Date:" result with
      | some m => stringsTrimSpace m
      | none => ""
    let expirationDate :=
      firstExpiry result
        ["Registry Expiry Date:", "Registrar Registration Expiration Date:", "Expiration Date:"]
    let registrar :=
      match FindStringSubmatch "Registrar:" result with
      | some m => stringsTrimSpace m
      | none => ""
    ([("creationDate", creationDate), ("expirationDate", expirationDate),
      ("registrar", registrar)], r.2)

end dnsquery

/-! ## Package database

Every function sends one statement; the statement fails when the fault oracle
says so at that moment, and then changes nothing.  Columns hold no NULL. -/

namespace database

/-- GetDomainInfo: the first row of domain_info with the given name. -/
def GetDomainInfo (env : Env) (domainName : String) (w : World) :
    Except String models.DomainInfo × World :=
  match env.storeFault w.tick with
  | some err => (Except.error err, w.next)
  | none =>
    match w.db.domain_info.find? (fun row => row.Name = domainName) with
    | none => (Except.error ("no domain found with name: " ++ domainName), w.next)
    | some domain => (Except.ok domain, w.next)

/-- GetDomainInfoAll: the rows of domain_info with status = true. -/
def GetDomainInfoAll (env : Env) (w : World) : Except String (List models.DomainInfo) × World :=
  match env.storeFault w.tick with
  | some err => (Except.error err, w.next)
  | none => (Except.ok (w.db.domain_info.filter (fun row => row.Status = true)), w.next)

/-- GetDomainInfoHistory: the query has no ORDER BY, and QueryRow keeps the
first row the scan returns. -/
def GetDomainInfoHistory (env : Env) (domainName : String) (w : World) :
    Except String models.DomainInfo × World :=
  match env.storeFault w.tick with
  | some err => (Except.error err, w.next)
  | none =>
    match w.db.domain_info_history.find? (fun row => row.Name = domainName) with
    | none => (Except.error ("no domain found with name: " ++ domainName), w.next)
    | some domain => (Except.ok domain, w.next)

/-- The statement UPDATE domain_info SET column = value, last_check = NOW()
WHERE name = domainName, where set writes the column. -/
def updateRows (env : Env) (domainName : String)
    (set : models.DomainInfo → models.DomainInfo) (call : Effect) (w : World) :
    GoError × World :=
  match env.storeFault w.tick with
  | some err => (some err, (w.emit call).next)
  | none =>
    (none,
      { db :=
          { domain_info := w.db.domain_info.map (fun row =>
              if row.Name = domainName then
                { set row with LastCheck := env.clock w.tick }
              else row),
            domain_info_history := w.db.domain_info_history },
        tick := w.tick + 1,
        trace := w.trace ++ [call] })

def UpdateSPF (env : Env) (domainName spfRecord : String) (w : World) : GoError × World :=
  updateRows env domainName (fun row => { row with Spf := spfRecord })
    (Effect.UpdateSPF domainName spfRecord) w

def UpdateDMARC (env : Env) (domainName DmarcRecord : String) (w : World) : GoError × World :=
  updateRows env domainName (fun row => { row with Dmarc := DmarcRecord })
    (Effect.UpdateDMARC domainName DmarcRecord) w

def UpdateNS (env : Env) (domainName nsRecord : String) (w : World) : GoError × World :=
  updateRows env domainName (fun row => { row with Nameservers := nsRecord })
    (Effect.UpdateNS domainName nsRecord) w

def UpdateWhois (env : Env) (domainName whois : String) (w : World) : GoError × World :=
  updateRows env domainName (fun row => { row with Whois := whois })
    (Effect.UpdateWhois domainName whois) w

/-- InsertDomainHistory: one new row at the end of domain_info_history; the
status column gets the constant true. -/
def InsertDomainHistory (env : Env) (domain : models.DomainInfo) (w : World) :
    GoError × World :=
  match env.storeFault w.tick with
  | some err => (some err, (w.emit (Effect.InsertDomainHistory domain)).next)
  | none =>
    (none,
      { db :=
          { domain_info := w.db.domain_info,
            domain_info_history :=
              w.db.domain_info_history ++ [{ domain with Status := true }] },
        tick := w.tick + 1,
        trace := w.trace ++ [Effect.InsertDomainHistory domain] })

end database

/-! ## Package subscribers -/

namespace subscribers

/-- SmtpSubscriber.OnDomainChange: one mail; a failed send is logged and
nothing is returned. -/
def SmtpSubscriber.OnDomainChange (env : Env) (s : SmtpSubscriber)
    (domain oldStatus newStatus : String) (w : World) : World :=
  let msg := "Subject: Domain Status Change\r\n\r\nDomain: " ++ domain ++
    "\nOld Status: " ++ oldStatus ++ "\nNew Status: " ++ newStatus
  let addr := s.smtpHost ++ ":" ++ toString s.smtpPort
  let w1 := (w.emit (Effect.SendMail addr s.smtpUser s.smtpPassword s.smtpHost s.fromEmail
    [s.toEmail] msg)).next
  match env.sendMail w.tick addr s.fromEmail [s.toEmail] msg with
  | some err => w1.emit (Effect.log ("Failed to send email notification: " ++ err))
  | none => w1

/-- SmtpSubscriber.Update: the switch on the event type. -/
def SmtpSubscriber.Update (env : Env) (s : SmtpSubscriber) (event : events.Event)
    (w : World) : World :=
  if event.GetEventType = events.EventTypeNameservers then
    SmtpSubscriber.OnDomainChange env s event.GetDomainInfo.Name
      event.DomainInfoPrev.Nameservers event.GetDomainInfo.Nameservers w
  else if event.GetEventType = events.EventTypeDmarc then
    SmtpSubscriber.OnDomainChange env s event.GetDomainInfo.Name
      event.DomainInfoPrev.Dmarc event.GetDomainInfo.Dmarc w
  else if event.GetEventType = events.EventTypeSpf then
    SmtpSubscriber.OnDomainChange env s event.GetDomainInfo.Name
      event.DomainInfoPrev.Spf event.GetDomainInfo.Spf w
  else w

end subscribers

/-! ## Package main -/

namespace updater

/-- The struct Observer. -/
structure Observer where
  Subscribers : List updater.Subscribers
deriving DecidableEq, Repr

/-- Observer.Update: every case of the switch is empty. -/
def Observer.Update (_o : Observer) (_event : events.Event) (w : World) : World := w

/-- The method call subscriber.Update(event) through the interface. -/
def Subscribers.Update (env : Env) (subscriber : updater.Subscribers) (event : events.Event)
    (w : World) : World :=
  subscribers.SmtpSubscriber.Update env subscriber.val event
    (w.emit (Effect.Update subscriber event))

/-- Observer.Notify: the range loop over the registry. -/
def Observer.Notify (env : Env) (o : Observer) (event : events.Event) (w : World) : World :=
  o.Subscribers.foldl (fun acc subscriber => Subscribers.Update env subscriber event acc)
    (w.emit (Effect.Notify event))

/-- Observer.RegisterSubscriber: append. -/
def Observer.RegisterSubscriber (o : Observer) (subscriber : updater.Subscribers) : Observer :=
  { Subscribers := o.Subscribers ++ [subscriber] }

/-- The range loop of UnregisterSubscriber at index i over the elements not
yet visited; all is the registry the loop started with. -/
def UnregisterSubscriberLoop (subscriber : updater.Subscribers)
    (all : List updater.Subscribers) : Nat → List updater.Subscribers → List updater.Subscribers
  | _, [] => all
  | i, sub :: rest =>
    if sub = subscriber then all.take i ++ all.drop (i + 1)
    else UnregisterSubscriberLoop subscriber all (i + 1) rest

/-- Observer.UnregisterSubscriber. -/
def Observer.UnregisterSubscriber (o : Observer) (subscriber : updater.Subscribers) : Observer :=
  { Subscribers := UnregisterSubscriberLoop subscriber o.Subscribers 0 o.Subscribers }

/-- joinMapByColon: key:value for every entry in the order the range
statement visits them, joined by a comma and a blank. -/
def joinMapByColon (env : Env) (m : List (String × String)) (w : World) : String × World :=
  let pairs := (env.mapRange w.tick m).map (fun kv => kv.1 ++ ":" ++ kv.2)
  (stringsJoin pairs ", ", w.next)

/-- Lines 57-64 of main: the value of nsRecordcomma once the result of
GetNSRecords has been handled: empty after an error, otherwise built by the
loop over the records. -/
def nsRecordcomma (nsRes : Except String (List String)) : String :=
  match nsRes with
  | Except.error _ => ""
  | Except.ok nsRecords => nsRecords.foldl (fun acc ns => acc ++ ", " ++ ns) ""

/-- The message of the panic raised by reading a field through a nil pointer. -/
def nilPointerDereference : String :=
  "runtime error: invalid memory address or nil pointer dereference"

/-- One of the three if-blocks of main (lines 116-157) on the pair of
hasChanges and the world: when the fetched value new differs from the stored
value old, build the event, notify, log, and set hasChanges. -/
def changeBlock (env : Env) (Observer : Observer) (eventType : events.EventType)
    (label domainName old new : String)
    (newDomainInfo domain_stored : models.DomainInfo) (s : Bool × World) : Bool × World :=
  if new ≠ old then
    let t := timeNow env s.2
    let event : events.Event :=
      { EventType := eventType,
        EventAction := events.EventActionChange,
        ExecuteTime := t.1,
        DomainInfo := newDomainInfo,
        DomainInfoPrev := domain_stored }
    (true, (Observer.Notify env event t.2).emit
      (Effect.log (label ++ " change detected for domain " ++ domainName ++ ". Old: " ++ old ++
        ", New: " ++ new)))
  else s

/-- Lines 112-172 of main: compare with the stored snapshot, notify, and
append to the history. -/
def compareAndStore (env : Env) (Observer : Observer) (domain : models.DomainInfo)
    (domain_stored : Except String models.DomainInfo)
    (dmarcRecord spfRecord nsRecordcomma : String)
    (newDomainInfo : models.DomainInfo) (w : World) : World :=
  match domain_stored with
  | Except.ok stored =>
    let s0 : Bool × World := (false, w)
    let s1 := changeBlock env Observer events.EventTypeDmarc "DMARC" domain.Name
      stored.Dmarc dmarcRecord newDomainInfo stored s0
    let s2 := changeBlock env Observer events.EventTypeSpf "SPF" domain.Name
      stored.Spf spfRecord newDomainInfo stored s1
    let s3 := changeBlock env Observer events.EventTypeNameservers "Nameservers" domain.Name
      stored.Nameservers nsRecordcomma newDomainInfo stored s2
    let hasChanges := s3.1
    if hasChanges then
      let r := database.InsertDomainHistory env newDomainInfo s3.2
      match r.1 with
      | some err_insert =>
        r.2.emit (Effect.log ("Error trying to insert history for domain " ++ domain.Name ++
          ": " ++ err_insert))
      | none => r.2
    else s3.2
  | Except.error _ =>
    let r := database.InsertDomainHistory env newDomainInfo w
    match r.1 with
    | some err_insert =>
      r.2.emit (Effect.log ("Error trying to insert first history for domain " ++
        domain.Name ++ ": " ++ err_insert))
    | none => r.2

/-- The local variables of one iteration of the loop of main that are still
read after line 96, and the world reached there. -/
structure Locals where
  domain_stored : Except String models.DomainInfo
  nsRecordcomma : String
  dmarcRecord : String
  spfRecord : String
  domainRec : Except String models.DomainInfo
  whois : String
  w : World

/-- Lines 53-96 of main: look up the history, fetch the records, write them
back to domain_info. -/
def fetchAndWriteBack (env : Env) (domain : models.DomainInfo) (w0 : World) : Locals :=
  let r0 := database.GetDomainInfoHistory env domain.Name w0
  let w1 := r0.2.emit (Effect.log (Sprintln ["Domain being checked: ", domain.Name]))
  let nsRes := dnsquery.GetNSRecords env domain.Name
  let w2 :=
    match nsRes with
    | Except.error _ =>
      w1.emit (Effect.log (Sprintln ["Domain NS Record not found ", domain.Name]))
    | Except.ok _ => w1
  let w3 := (database.UpdateNS env domain.Name (nsRecordcomma nsRes) w2).2
  let dm := dnsquery.GetDMARCRecord env domain.Name
  let w4 :=
    if dm.2.isSome then
      w3.emit (Effect.log (Sprintln ["Domain DMARC Record not found ", domain.Name]))
    else w3
  let w5 := (database.UpdateDMARC env domain.Name dm.1 w4).2
  let sp := dnsquery.GetSPFRecord env domain.Name
  let w6 :=
    if sp.2.isSome then
      w5.emit (Effect.log (Sprintln ["Domain SPF Record not found ", domain.Name]))
    else w5
  let w7 := (database.UpdateSPF env domain.Name sp.1 w6).2
  let r7 := database.GetDomainInfo env domain.Name w7
  let w8 :=
    match r7.1 with
    | Except.error _ =>
      r7.2.emit (Effect.log (Sprintln ["Error geting info for domain Name:", domain.Name]))
    | Except.ok _ => r7.2
  let r9 := dnsquery.GetAllDatesFromWhois env domain.Name w8
  let mapOfDates := r9.1
  let j : String × World :=
    if mapOfDates.length > 0 then
      let jr := joinMapByColon env mapOfDates r9.2
      (jr.1, (database.UpdateWhois env domain.Name jr.1 jr.2).2)
    else ("", r9.2)
  { domain_stored := r0.1,
    nsRecordcomma := nsRecordcomma nsRes,
    dmarcRecord := dm.1,
    spfRecord := sp.1,
    domainRec := r7.1,
    whois := j.1,
    w := j.2 }

/-- Lines 98-110 of main: the struct literal newDomainInfo. -/
def newDomainInfo (domainRec : models.DomainInfo) (now : Nat)
    (dmarcRecord spfRecord nsRecordcomma whois : String) : models.DomainInfo :=
  { Name := domainRec.Name,
    Registrar := domainRec.Registrar,
    State := domainRec.State,
    Tier := domainRec.Tier,
    TransferTo := domainRec.TransferTo,
    LastCheck := now,
    Dmarc := dmarcRecord,
    Spf := spfRecord,
    Nameservers := nsRecordcomma,
    Status := true,
    Whois := whois }

/-- The body of the loop of main (lines 53-172) for one domain.  Reading
domainRec.Name at line 99 panics when GetDomainInfo returned nil. -/
def mainLoopBody (env : Env) (Observer : Observer) (domain : models.DomainInfo)
    (w0 : World) : Outcome :=
  let c := fetchAndWriteBack env domain w0
  match c.domainRec with
  | Except.error _ => Outcome.panicked nilPointerDereference c.w
  | Except.ok domainRec =>
    let t := timeNow env c.w
    Outcome.done
      (compareAndStore env Observer domain c.domain_stored c.dmarcRecord c.spfRecord
        c.nsRecordcomma
        (newDomainInfo domainRec t.1 c.dmarcRecord c.spfRecord c.nsRecordcomma c.whois) t.2)

/-- The range loop of main over the active domains (lines 52-173); a panic in
one iteration ends the loop. -/
def mainLoop (env : Env) (Observer : Observer) : List models.DomainInfo → World → Outcome
  | [], w => Outcome.done w
  | domain :: rest, w =>
    match mainLoopBody env Observer domain w with
    | Outcome.done w1 => mainLoop env Observer rest w1
    | Outcome.panicked msg w1 => Outcome.panicked msg w1

/-- The function main from the registration of the subscriber on; the
subscriber is the one NewSmtpSubscriber built from the process environment,
and the world is the database once Initialize has connected. -/
def main (env : Env) (subscriber : updater.Subscribers) (w : World) : Outcome :=
  let Observer := (Observer.mk []).RegisterSubscriber subscriber
  let r := database.GetDomainInfoAll env w
  match r.1 with
  | Except.error err =>
    Outcome.panicked "ERROR Getting all domains"
      (r.2.emit (Effect.log ("ERROR: Rows iteration error: " ++ err)))
  | Except.ok domains => mainLoop env Observer domains r.2

end updater

/-! ## Reading a trace -/

/-- The events passed to Observer.Notify, in order. -/
def notifiedEvents (t : List Effect) : List events.Event :=
  t.filterMap (fun e =>
    match e with
    | Effect.Notify event => some event
    | _ => none)

/-- The arguments of the calls of InsertDomainHistory, in order. -/
def historyInserts (t : List Effect) : List models.DomainInfo :=
  t.filterMap (fun e =>
    match e with
    | Effect.InsertDomainHistory d => some d
    | _ => none)

/-- The calls subscriber.Update(event), in order. -/
def updateCalls (t : List Effect) : List (updater.Subscribers × events.Event) :=
  t.filterMap (fun e =>
    match e with
    | Effect.Update s event => some (s, event)
    | _ => none)

/-- The log lines, in order. -/
def logLines (t : List Effect) : List String :=
  t.filterMap (fun e =>
    match e with
    | Effect.log msg => some msg
    | _ => none)

/-- What a run added to the trace of the world it started from. -/
def newEffects (w0 w1 : World) : List Effect := w1.trace.drop w0.trace.length

/-- A step from w to w1 that only adds to the trace, passes no event to
Observer.Notify, does not call InsertDomainHistory, leaves the history table
as it is and keeps the names of the rows of domain_info. -/
structure Quiet (w w1 : World) : Prop where
  pre : w.trace <+: w1.trace
  notified : notifiedEvents w1.trace = notifiedEvents w.trace
  inserts : historyInserts w1.trace = historyInserts w.trace
  history : w1.db.domain_info_history = w.db.domain_info_history
  names : w1.db.domain_info.map (fun r => r.Name) = w.db.domain_info.map (fun r => r.Name)

/-- The event one if-block of main builds. -/
def changeEvent (eventType : events.EventType) (t : Nat)
    (newDomainInfo domain_stored : models.DomainInfo) : events.Event :=
  { EventType := eventType,
    EventAction := events.EventActionChange,
    ExecuteTime := t,
    DomainInfo := newDomainInfo,
    DomainInfoPrev := domain_stored }

/-- The calls of UpdateNS, UpdateDMARC, UpdateSPF and UpdateWhois, in order. -/
def storeWrites (t : List Effect) : List Effect :=
  t.filter (fun e =>
    match e with
    | Effect.UpdateNS _ _ => true
    | Effect.UpdateDMARC _ _ => true
    | Effect.UpdateSPF _ _ => true
    | Effect.UpdateWhois _ _ => true
    | _ => false)

/-- A step from w to w1 that only adds to the trace and makes exactly the
calls l of UpdateNS, UpdateDMARC, UpdateSPF and UpdateWhois, in this order. -/
structure Writes (w w1 : World) (l : List Effect) : Prop where
  pre : w.trace <+: w1.trace
  writes : storeWrites w1.trace = storeWrites w.trace ++ l

/-- The literal lit occurs in text for the first time right after pre, and
tail is what follows that occurrence. -/
abbrev FirstOccurrence (lit pre tail text : List Char) : Prop :=
  text = pre ++ lit ++ tail ∧ ∀ k, k < pre.length → lit.isPrefixOf (text.drop k) = false

/-- The rest of the line that tail begins. -/
def restOfLine (tail : List Char) : List Char := tail.takeWhile (fun c => c != '\n')

/-- Some character of the line is not white space. -/
abbrev NonBlank (line : List Char) : Prop := ∃ c ∈ line, unicodeIsSpace c = false

/-- The literal lit does not occur in text. -/
abbrev NoOccurrence (lit text : List Char) : Prop :=
  ∀ k, k ≤ text.length → lit.isPrefixOf (text.drop k) = false

/-- The columns of a row of domain_info that the program never writes. -/
def identity (r : models.DomainInfo) : String × String × String × String × String :=
  (r.Name, r.Registrar, r.State, r.Tier, r.TransferTo)

/-- The never-written columns of the rows of domain_info, in table order. -/
def identities (w : World) : List (String × String × String × String × String) :=
  w.db.domain_info.map identity

open updater

/-! ## Scenarios

Concrete worlds on which the program is run. -/

namespace scenario

/-- A row with the monitored fields given and the rest fixed. -/
def row (name registrar spf dmarc ns whois : String) : models.DomainInfo :=
  { Name := name, Registrar := registrar, State := "active", Tier := "1", TransferTo := "",
    LastCheck := 0, Spf := spf, Dmarc := dmarc, Nameservers := ns, Status := true,
    Whois := whois }

def smtp : updater.Subscribers :=
  { addr := 1,
    val := { smtpHost := "mail.example.org", smtpPort := 25, smtpUser := "u",
             smtpPassword := "p", fromEmail := "from@example.org",
             toEmail := "to@example.org" } }

def observer : Observer := (Observer.mk []).RegisterSubscriber smtp

def smtp2 : updater.Subscribers :=
  { addr := 2,
    val := { smtpHost := "mail.example.net", smtpPort := 587, smtpUser := "v",
             smtpPassword := "q", fromEmail := "from@example.net",
             toEmail := "ops@example.net" } }

def smtp3 : updater.Subscribers :=
  { addr := 3,
    val := { smtpHost := "mail.example.net", smtpPort := 587, smtpUser := "v",
             smtpPassword := "q", fromEmail := "from@example.net",
             toEmail := "oncall@example.net" } }

/-- An SPF change event for example.com. -/
def spfEvent : events.Event :=
  { EventType := events.EventTypeSpf, EventAction := events.EventActionChange,
    ExecuteTime := 1700000009,
    DomainInfo :=
      { Name := "example.com", Registrar := "Example Registrar", State := "active",
        Tier := "1", TransferTo := "", LastCheck := 1700000008,
        Spf := "v=spf1 include:_spf.example.com ~all", Dmarc := "v=DMARC1; p=none",
        Nameservers := ", ns1.example.com., ns2.example.com.", Status := true, Whois := "" },
    DomainInfoPrev :=
      { Name := "example.com", Registrar := "Example Registrar", State := "active",
        Tier := "1", TransferTo := "", LastCheck := 0,
        Spf := "v=spf1 ~all", Dmarc := "v=DMARC1; p=none",
        Nameservers := ", ns1.example.com., ns2.example.com.", Status := true, Whois := "" } }

/-- The answers of the outside world: new.com has SPF "v=spf1 ~all", no DMARC
record and the name server ns1.new.com; example.com has a new SPF record, a
DMARC record and two name servers; every statement and every mail succeeds. -/
def env : Env :=
  { clock := fun n => 1700000000 + n,
    storeFault := fun _ => none,
    dnsQueryImpl := fun d q =>
      if q = TypeNS then
        if d = "new.com" then Except.ok [RR.NS "ns1.new.com"]
        else if d = "example.com" then
          Except.ok [RR.NS "ns1.example.com.", RR.NS "ns2.example.com."]
        else Except.error "no such host"
      else Except.error "unexpected qtype",
    lookupTXTImpl := fun d =>
      if d = "new.com" then Except.ok ["v=spf1 ~all"]
      else if d = "example.com" then
        Except.ok ["google-site-verification=abc", "v=spf1 include:_spf.example.com ~all"]
      else if d = "_dmarc.example.com" then Except.ok ["v=DMARC1; p=none"]
      else Except.ok [],
    whois := fun d =>
      if d = "example.com" then
        Except.ok ("Registrar: Example Registrar\nRegistry Expiry Date: 2026-10-30T12:00:00Z\n" ++
          "Creation Date: 2020-01-01T00:00:00Z")
      else Except.error "whois: connect timeout",
    mapRange := fun _ m => m,
    sendMail := fun _ _ _ _ _ => none }

def newCom : models.DomainInfo := row "new.com" "Example Registrar" "" "" "" ""

def exampleCom : models.DomainInfo := row "example.com" "Example Registrar" "" "" "" ""

/-- The stored snapshot of example.com: only the SPF record is older. -/
def storedSpf : models.DomainInfo :=
  row "example.com" "Example Registrar" "v=spf1 ~all" "v=DMARC1; p=none"
    ", ns1.example.com., ns2.example.com." ""

/-- A stored snapshot of example.com with the three monitored fields as
fetched, and another registrar, WHOIS summary and last-check time. -/
def storedSame : models.DomainInfo :=
  row "example.com" "Old Registrar" "v=spf1 include:_spf.example.com ~all" "v=DMARC1; p=none"
    ", ns1.example.com., ns2.example.com." "registrar:Old Registrar"

/-- A stored snapshot of example.com whose three monitored fields are all older. -/
def storedAll : models.DomainInfo :=
  row "example.com" "Example Registrar" "v=spf1 ~all" "v=DMARC1; p=reject"
    ", ns1.old.example." ""

def world (history : List models.DomainInfo) : World :=
  { db := { domain_info := [newCom, exampleCom], domain_info_history := history },
    tick := 0, trace := [] }

/-- The same answers, but the sixth statement sent to the database fails. -/
def envFault : Env :=
  { env with
    storeFault := fun n => if n = 5 then some "connection reset by peer" else none }

/-- The same answers, but no mail can be sent. -/
def envNoMail : Env :=
  { env with sendMail := fun _ _ _ _ _ => some "dial tcp: connection refused" }

/-- The world after one iteration for example.com from the history
[storedSpf], and after a second one. -/
def afterFirstRun : World :=
  (mainLoopBody env observer exampleCom (world [storedSpf])).world

def afterSecondRun : World :=
  (mainLoopBody env observer exampleCom afterFirstRun).world

/-- The answers the tests of package dnsquery give: one DMARC record, one
DKIM record under the selector "selector", and an SPF record followed by
another TXT record; any other name is an error. -/
def envMail : Env :=
  { env with
    lookupTXTImpl := fun d =>
      if d = "_dmarc.example.com" then
        Except.ok ["v=DMARC1; p=none; rua=mailto:postmaster@example.com"]
      else if d = "selector._domainkey.example.com" then
        Except.ok ["v=DKIM1; k=rsa; p=abcd"]
      else if d = "example.com" then
        Except.ok ["v=spf1 include:_spf.example.com ~all", "other"]
      else Except.error "unexpected domain" }

end scenario

/-! ## Lemmas on traces and steps -/

theorem newEffects_append (w0 w1 : World) (l : List Effect) (h : w1.trace = w0.trace ++ l) :
    newEffects w0 w1 = l := by
  unfold newEffects
  rw [h]
  simp

theorem trace_eq_append_newEffects (w0 w1 : World) (h : w0.trace <+: w1.trace) :
    w1.trace = w0.trace ++ newEffects w0 w1 := by
  obtain ⟨l, hl⟩ := h
  rw [newEffects_append w0 w1 l hl.symm, hl]

theorem notifiedEvents_append (a b : List Effect) :
    notifiedEvents (a ++ b) = notifiedEvents a ++ notifiedEvents b := by
  simp [notifiedEvents, List.filterMap_append]

theorem historyInserts_append (a b : List Effect) :
    historyInserts (a ++ b) = historyInserts a ++ historyInserts b := by
  simp [historyInserts, List.filterMap_append]

theorem updateCalls_append (a b : List Effect) :
    updateCalls (a ++ b) = updateCalls a ++ updateCalls b := by
  simp [updateCalls, List.filterMap_append]

theorem notifiedEvents_newEffects (w0 w1 : World) (X : List events.Event)
    (hp : w0.trace <+: w1.trace)
    (h : notifiedEvents w1.trace = notifiedEvents w0.trace ++ X) :
    notifiedEvents (newEffects w0 w1) = X := by
  have e := trace_eq_append_newEffects w0 w1 hp
  rw [e, notifiedEvents_append] at h
  exact List.append_cancel_left h

theorem historyInserts_newEffects (w0 w1 : World) (X : List models.DomainInfo)
    (hp : w0.trace <+: w1.trace)
    (h : historyInserts w1.trace = historyInserts w0.trace ++ X) :
    historyInserts (newEffects w0 w1) = X := by
  have e := trace_eq_append_newEffects w0 w1 hp
  rw [e, historyInserts_append] at h
  exact List.append_cancel_left h

theorem updateCalls_newEffects (w0 w1 : World) (X : List (updater.Subscribers × events.Event))
    (hp : w0.trace <+: w1.trace)
    (h : updateCalls w1.trace = updateCalls w0.trace ++ X) :
    updateCalls (newEffects w0 w1) = X := by
  have e := trace_eq_append_newEffects w0 w1 hp
  rw [e, updateCalls_append] at h
  exact List.append_cancel_left h

theorem Quiet.refl (w : World) : Quiet w w := ⟨List.prefix_refl _, rfl, rfl, rfl, rfl⟩

theorem Quiet.trans {a b c : World} (h1 : Quiet a b) (h2 : Quiet b c) : Quiet a c :=
  ⟨h1.pre.trans h2.pre, h2.notified.trans h1.notified, h2.inserts.trans h1.inserts,
    h2.history.trans h1.history, h2.names.trans h1.names⟩

theorem Quiet.emit_log (w : World) (msg : String) : Quiet w (w.emit (Effect.log msg)) := by
  constructor <;> simp [World.emit, notifiedEvents, historyInserts]

theorem Quiet.next (w : World) : Quiet w w.next := by
  constructor <;> simp [World.next]

theorem Quiet.updateRows (env : Env) (n : String) (set : models.DomainInfo → models.DomainInfo)
    (call : Effect) (w : World) (h1 : notifiedEvents [call] = [])
    (h2 : historyInserts [call] = []) (h3 : ∀ r, (set r).Name = r.Name) :
    Quiet w (database.updateRows env n set call w).2 := by
  unfold database.updateRows
  split
  · constructor <;>
      simp [World.emit, World.next, notifiedEvents_append, historyInserts_append, h1, h2]
  · constructor
    · simp
    · simp [notifiedEvents_append, h1]
    · simp [historyInserts_append, h2]
    · rfl
    · simp only [List.map_map]
      apply List.map_congr_left
      intro r _
      by_cases hr : r.Name = n
      · simp [hr, h3]
      · simp [hr]

theorem Quiet.UpdateNS (env : Env) (n v : String) (w : World) :
    Quiet w (database.UpdateNS env n v w).2 :=
  Quiet.updateRows env n _ _ w rfl rfl (fun _ => rfl)

theorem Quiet.UpdateDMARC (env : Env) (n v : String) (w : World) :
    Quiet w (database.UpdateDMARC env n v w).2 :=
  Quiet.updateRows env n _ _ w rfl rfl (fun _ => rfl)

theorem Quiet.UpdateSPF (env : Env) (n v : String) (w : World) :
    Quiet w (database.UpdateSPF env n v w).2 :=
  Quiet.updateRows env n _ _ w rfl rfl (fun _ => rfl)

theorem Quiet.UpdateWhois (env : Env) (n v : String) (w : World) :
    Quiet w (database.UpdateWhois env n v w).2 :=
  Quiet.updateRows env n _ _ w rfl rfl (fun _ => rfl)

theorem Quiet.GetDomainInfoHistory (env : Env) (n : String) (w : World) :
    Quiet w (database.GetDomainInfoHistory env n w).2 := by
  unfold database.GetDomainInfoHistory
  split
  · exact Quiet.next w
  · split <;> exact Quiet.next w

theorem Quiet.GetDomainInfo (env : Env) (n : String) (w : World) :
    Quiet w (database.GetDomainInfo env n w).2 := by
  unfold database.GetDomainInfo
  split
  · exact Quiet.next w
  · split <;> exact Quiet.next w

theorem Quiet.GetAllDatesFromWhois (env : Env) (n : String) (w : World) :
    Quiet w (dnsquery.GetAllDatesFromWhois env n w).2 := by
  unfold dnsquery.GetAllDatesFromWhois dnsquery.GetWhois dnsquery.whoisImpl
  dsimp only
  cases env.whois n with
  | error e => exact Quiet.emit_log w _
  | ok r => exact Quiet.refl w

theorem Quiet.joinMapByColon (env : Env) (m : List (String × String)) (w : World) :
    Quiet w (joinMapByColon env m w).2 := Quiet.next w

theorem Quiet.OnDomainChange (env : Env) (s : subscribers.SmtpSubscriber)
    (d o n : String) (w : World) :
    Quiet w (subscribers.SmtpSubscriber.OnDomainChange env s d o n w) := by
  unfold subscribers.SmtpSubscriber.OnDomainChange
  dsimp only
  split <;> constructor <;>
    simp [World.emit, World.next, notifiedEvents, historyInserts]

theorem OnDomainChange_updateCalls (env : Env) (s : subscribers.SmtpSubscriber)
    (d o n : String) (w : World) :
    updateCalls (subscribers.SmtpSubscriber.OnDomainChange env s d o n w).trace =
      updateCalls w.trace := by
  unfold subscribers.SmtpSubscriber.OnDomainChange
  dsimp only
  split <;> simp [World.emit, World.next, updateCalls]

theorem OnDomainChange_db (env : Env) (s : subscribers.SmtpSubscriber)
    (d o n : String) (w : World) :
    (subscribers.SmtpSubscriber.OnDomainChange env s d o n w).db = w.db := by
  unfold subscribers.SmtpSubscriber.OnDomainChange
  dsimp only
  split <;> simp [World.emit, World.next]

theorem Quiet.SmtpUpdate (env : Env) (s : subscribers.SmtpSubscriber) (e : events.Event)
    (w : World) : Quiet w (subscribers.SmtpSubscriber.Update env s e w) := by
  unfold subscribers.SmtpSubscriber.Update
  split_ifs
  · exact Quiet.OnDomainChange _ _ _ _ _ _
  · exact Quiet.OnDomainChange _ _ _ _ _ _
  · exact Quiet.OnDomainChange _ _ _ _ _ _
  · exact Quiet.refl w

theorem SmtpUpdate_updateCalls (env : Env) (s : subscribers.SmtpSubscriber) (e : events.Event)
    (w : World) :
    updateCalls (subscribers.SmtpSubscriber.Update env s e w).trace = updateCalls w.trace := by
  unfold subscribers.SmtpSubscriber.Update
  split_ifs
  · exact OnDomainChange_updateCalls _ _ _ _ _ _
  · exact OnDomainChange_updateCalls _ _ _ _ _ _
  · exact OnDomainChange_updateCalls _ _ _ _ _ _
  · rfl

theorem SmtpUpdate_db (env : Env) (s : subscribers.SmtpSubscriber) (e : events.Event)
    (w : World) : (subscribers.SmtpSubscriber.Update env s e w).db = w.db := by
  unfold subscribers.SmtpSubscriber.Update
  split_ifs
  · exact OnDomainChange_db _ _ _ _ _ _
  · exact OnDomainChange_db _ _ _ _ _ _
  · exact OnDomainChange_db _ _ _ _ _ _
  · rfl

theorem Quiet.emit_Update (w : World) (s : updater.Subscribers) (e : events.Event) :
    Quiet w (w.emit (Effect.Update s e)) := by
  constructor <;> simp [World.emit, notifiedEvents, historyInserts]

/-- The call subscriber.Update(event): quiet, one more Update call, same tables. -/
theorem Update_spec (env : Env) (s : updater.Subscribers) (e : events.Event) (w : World) :
    Quiet w (Subscribers.Update env s e w) ∧
      updateCalls (Subscribers.Update env s e w).trace = updateCalls w.trace ++ [(s, e)] ∧
      (Subscribers.Update env s e w).db = w.db := by
  unfold Subscribers.Update
  refine ⟨(Quiet.emit_Update w s e).trans (Quiet.SmtpUpdate _ _ _ _), ?_, ?_⟩
  · rw [SmtpUpdate_updateCalls]
    simp [World.emit, updateCalls]
  · rw [SmtpUpdate_db]
    rfl

/-- The range loop of Notify from any world. -/
theorem notifyLoop_spec (env : Env) (e : events.Event) (subs : List updater.Subscribers) :
    ∀ w : World,
      Quiet w (subs.foldl (fun acc s => Subscribers.Update env s e acc) w) ∧
      updateCalls (subs.foldl (fun acc s => Subscribers.Update env s e acc) w).trace =
        updateCalls w.trace ++ subs.map (fun s => (s, e)) ∧
      (subs.foldl (fun acc s => Subscribers.Update env s e acc) w).db = w.db := by
  induction subs with
  | nil => intro w; exact ⟨Quiet.refl w, by simp, rfl⟩
  | cons s rest ih =>
    intro w
    obtain ⟨q1, u1, d1⟩ := Update_spec env s e w
    obtain ⟨q2, u2, d2⟩ := ih (Subscribers.Update env s e w)
    refine ⟨q1.trans q2, ?_, ?_⟩
    · rw [List.foldl_cons, u2, u1]
      simp
    · rw [List.foldl_cons, d2, d1]

/-- Observer.Notify passes exactly its event, calls Update once per registry
entry in order, and touches no table. -/
theorem Notify_spec (env : Env) (o : Observer) (e : events.Event) (w : World) :
    w.trace <+: (o.Notify env e w).trace ∧
    notifiedEvents (o.Notify env e w).trace = notifiedEvents w.trace ++ [e] ∧
    historyInserts (o.Notify env e w).trace = historyInserts w.trace ∧
    updateCalls (o.Notify env e w).trace =
      updateCalls w.trace ++ o.Subscribers.map (fun s => (s, e)) ∧
    (o.Notify env e w).db = w.db := by
  unfold Observer.Notify
  obtain ⟨q, u, d⟩ := notifyLoop_spec env e o.Subscribers (w.emit (Effect.Notify e))
  refine ⟨?_, ?_, ?_, ?_, ?_⟩
  · exact List.IsPrefix.trans (by simp [World.emit]) q.pre
  · rw [q.notified]; simp [World.emit, notifiedEvents]
  · rw [q.inserts]; simp [World.emit, historyInserts]
  · rw [u]; simp [World.emit, updateCalls]
  · rw [d]; rfl

/-- One if-block of main. -/
theorem changeBlock_spec (env : Env) (o : Observer) (ty : events.EventType)
    (label name old new : String) (nd st : models.DomainInfo) (s : Bool × World) :
    ∃ t : Nat,
      s.2.trace <+: (changeBlock env o ty label name old new nd st s).2.trace ∧
      notifiedEvents (changeBlock env o ty label name old new nd st s).2.trace =
        notifiedEvents s.2.trace ++ (if new ≠ old then [changeEvent ty t nd st] else []) ∧
      historyInserts (changeBlock env o ty label name old new nd st s).2.trace =
        historyInserts s.2.trace ∧
      (changeBlock env o ty label name old new nd st s).2.db = s.2.db ∧
      (changeBlock env o ty label name old new nd st s).1 = (decide (new ≠ old) || s.1) := by
  refine ⟨env.clock s.2.tick, ?_⟩
  unfold changeBlock
  by_cases h : new = old
  · simp [h]
  · obtain ⟨p, n, i, _, d⟩ := Notify_spec env o (changeEvent ty (env.clock s.2.tick) nd st)
      (timeNow env s.2).2
    have hp : s.2.trace <+: (timeNow env s.2).2.trace := by simp [timeNow, World.next]
    have hn : notifiedEvents (timeNow env s.2).2.trace = notifiedEvents s.2.trace := by
      simp [timeNow, World.next]
    have hi : historyInserts (timeNow env s.2).2.trace = historyInserts s.2.trace := by
      simp [timeNow, World.next]
    have hd : (timeNow env s.2).2.db = s.2.db := by simp [timeNow, World.next]
    simp only [ne_eq, h, not_false_eq_true, if_true, decide_True, Bool.true_or]
    refine ⟨?_, ?_, ?_, ?_, trivial⟩
    · exact (hp.trans p).trans (List.prefix_append _ _)
    · have : notifiedEvents ((o.Notify env (changeEvent ty (env.clock s.2.tick) nd st)
          (timeNow env s.2).2).emit (Effect.log (label ++ " change detected for domain " ++
            name ++ ". Old: " ++ old ++ ", New: " ++ new))).trace =
          notifiedEvents (o.Notify env (changeEvent ty (env.clock s.2.tick) nd st)
            (timeNow env s.2).2).trace := by
        simp [World.emit, notifiedEvents]
      exact this.trans (n.trans (by rw [hn]))
    · have : historyInserts ((o.Notify env (changeEvent ty (env.clock s.2.tick) nd st)
          (timeNow env s.2).2).emit (Effect.log (label ++ " change detected for domain " ++
            name ++ ". Old: " ++ old ++ ", New: " ++ new))).trace =
          historyInserts (o.Notify env (changeEvent ty (env.clock s.2.tick) nd st)
            (timeNow env s.2).2).trace := by
        simp [World.emit, historyInserts]
      exact this.trans (i.trans hi)
    · exact d.trans hd

/-- InsertDomainHistory: one call; the table gains the row, or nothing when
the statement fails. -/
theorem InsertDomainHistory_spec (env : Env) (d : models.DomainInfo) (w : World) :
    w.trace <+: (database.InsertDomainHistory env d w).2.trace ∧
    notifiedEvents (database.InsertDomainHistory env d w).2.trace = notifiedEvents w.trace ∧
    historyInserts (database.InsertDomainHistory env d w).2.trace =
      historyInserts w.trace ++ [d] ∧
    (database.InsertDomainHistory env d w).2.db.domain_info_history =
      w.db.domain_info_history ++
        (if env.storeFault w.tick = none then [{ d with Status := true }] else []) := by
  unfold database.InsertDomainHistory
  split <;> rename_i h <;>
    simp [h, World.emit, World.next, notifiedEvents, historyInserts]

theorem log_after (w : World) (msg : String) :
    w.trace <+: (w.emit (Effect.log msg)).trace ∧
    notifiedEvents (w.emit (Effect.log msg)).trace = notifiedEvents w.trace ∧
    historyInserts (w.emit (Effect.log msg)).trace = historyInserts w.trace ∧
    (w.emit (Effect.log msg)).db = w.db := by
  simp [World.emit, notifiedEvents, historyInserts]

/-- The call of InsertDomainHistory with the log line that follows a failure. -/
theorem insertAndLog_spec (env : Env) (d : models.DomainInfo) (w : World) (pre : String) :
    ∀ out : World,
      out = (match (database.InsertDomainHistory env d w).1 with
        | some err_insert =>
          (database.InsertDomainHistory env d w).2.emit (Effect.log (pre ++ err_insert))
        | none => (database.InsertDomainHistory env d w).2) →
      w.trace <+: out.trace ∧
      notifiedEvents out.trace = notifiedEvents w.trace ∧
      historyInserts out.trace = historyInserts w.trace ++ [d] ∧
      out.db.domain_info_history = w.db.domain_info_history ++
        (if env.storeFault w.tick = none then [{ d with Status := true }] else []) := by
  intro out hout
  obtain ⟨p, n, i, h⟩ := InsertDomainHistory_spec env d w
  cases hr : (database.InsertDomainHistory env d w).1 with
  | none =>
    rw [hr] at hout
    subst hout
    exact ⟨p, n, i, h⟩
  | some e =>
    rw [hr] at hout
    subst hout
    obtain ⟨p2, n2, i2, d2⟩ := log_after (database.InsertDomainHistory env d w).2 (pre ++ e)
    exact ⟨p.trans p2, n2.trans n, i2.trans i, by rw [d2]; exact h⟩

/-- Lines 112-165 of main when a stored snapshot was found. -/
theorem compareAndStore_found (env : Env) (o : Observer) (domain stored : models.DomainInfo)
    (dm sp ns : String) (nd : models.DomainInfo) (w out : World)
    (hout : out = compareAndStore env o domain (Except.ok stored) dm sp ns nd w) :
    ∃ t1 t2 t3 : Nat,
      w.trace <+: out.trace ∧
      notifiedEvents out.trace = notifiedEvents w.trace ++
        ((if dm ≠ stored.Dmarc then [changeEvent events.EventTypeDmarc t1 nd stored] else []) ++
         ((if sp ≠ stored.Spf then [changeEvent events.EventTypeSpf t2 nd stored] else []) ++
          (if ns ≠ stored.Nameservers then
            [changeEvent events.EventTypeNameservers t3 nd stored] else []))) ∧
      historyInserts out.trace = historyInserts w.trace ++
        (if dm = stored.Dmarc ∧ sp = stored.Spf ∧ ns = stored.Nameservers then [] else [nd]) ∧
      (dm = stored.Dmarc ∧ sp = stored.Spf ∧ ns = stored.Nameservers →
        out.db.domain_info_history = w.db.domain_info_history) ∧
      (out.db.domain_info_history = w.db.domain_info_history ∨
        out.db.domain_info_history = w.db.domain_info_history ++ [{ nd with Status := true }]) ∧
      ((∀ n, env.storeFault n = none) →
        ¬ (dm = stored.Dmarc ∧ sp = stored.Spf ∧ ns = stored.Nameservers) →
        out.db.domain_info_history = w.db.domain_info_history ++ [{ nd with Status := true }]) := by
  obtain ⟨t1, p1, n1, i1, d1, f1⟩ := changeBlock_spec env o events.EventTypeDmarc "DMARC"
    domain.Name stored.Dmarc dm nd stored (false, w)
  obtain ⟨t2, p2, n2, i2, d2, f2⟩ := changeBlock_spec env o events.EventTypeSpf "SPF"
    domain.Name stored.Spf sp nd stored
    (changeBlock env o events.EventTypeDmarc "DMARC" domain.Name stored.Dmarc dm nd stored
      (false, w))
  obtain ⟨t3, p3, n3, i3, d3, f3⟩ := changeBlock_spec env o events.EventTypeNameservers
    "Nameservers" domain.Name stored.Nameservers ns nd stored
    (changeBlock env o events.EventTypeSpf "SPF" domain.Name stored.Spf sp nd stored
      (changeBlock env o events.EventTypeDmarc "DMARC" domain.Name stored.Dmarc dm nd stored
        (false, w)))
  refine ⟨t1, t2, t3, ?_⟩
  unfold compareAndStore at hout
  dsimp only at hout
  generalize hs3 : changeBlock env o events.EventTypeNameservers "Nameservers" domain.Name
    stored.Nameservers ns nd stored
    (changeBlock env o events.EventTypeSpf "SPF" domain.Name stored.Spf sp nd stored
      (changeBlock env o events.EventTypeDmarc "DMARC" domain.Name stored.Dmarc dm nd stored
        (false, w))) = s3 at *
  have p : w.trace <+: s3.2.trace := (p1.trans p2).trans p3
  have n : notifiedEvents s3.2.trace = notifiedEvents w.trace ++
      ((if dm ≠ stored.Dmarc then [changeEvent events.EventTypeDmarc t1 nd stored] else []) ++
       ((if sp ≠ stored.Spf then [changeEvent events.EventTypeSpf t2 nd stored] else []) ++
        (if ns ≠ stored.Nameservers then
          [changeEvent events.EventTypeNameservers t3 nd stored] else []))) := by
    rw [n3, n2, n1]
    simp only [List.append_assoc]
  have i : historyInserts s3.2.trace = historyInserts w.trace := i3.trans (i2.trans i1)
  have d : s3.2.db = w.db := d3.trans (d2.trans d1)
  have f : s3.1 = (decide (ns ≠ stored.Nameservers) || (decide (sp ≠ stored.Spf) ||
      (decide (dm ≠ stored.Dmarc) || false))) := by rw [f3, f2, f1]
  by_cases hc : dm = stored.Dmarc ∧ sp = stored.Spf ∧ ns = stored.Nameservers
  · have hf : s3.1 = false := by
      rw [f]; simp [hc.1, hc.2.1, hc.2.2]
    rw [hf] at hout
    simp only [Bool.false_eq_true, if_false] at hout
    subst hout
    refine ⟨p, n, ?_, ?_, ?_, ?_⟩
    · rw [i, if_pos hc]; simp
    · intro _; rw [d]
    · left; rw [d]
    · intro _ hne; exact absurd hc hne
  · have hf : s3.1 = true := by
      rw [f]
      by_cases h1 : dm = stored.Dmarc
      · by_cases h2 : sp = stored.Spf
        · have h3 : ns ≠ stored.Nameservers := fun h3 => hc ⟨h1, h2, h3⟩
          simp [h3]
        · simp [h2]
      · simp [h1]
    rw [hf] at hout
    simp only [if_true] at hout
    obtain ⟨pp, nn, ii, hh⟩ := insertAndLog_spec env nd s3.2
      ("Error trying to insert history for domain " ++ domain.Name ++ ": ") out
      (by rw [hout])
    refine ⟨p.trans pp, nn.trans n, ?_, ?_, ?_, ?_⟩
    · rw [ii, i, if_neg hc]
    · intro h; exact absurd h hc
    · rw [hh, d]
      by_cases hfault : env.storeFault s3.2.tick = none
      · right; rw [if_pos hfault]
      · left; rw [if_neg hfault]; simp
    · intro hno _
      rw [hh, d, if_pos (hno _)]

/-- Lines 166-172 of main: no stored snapshot. -/
theorem compareAndStore_first (env : Env) (o : Observer) (domain : models.DomainInfo)
    (err : String) (dm sp ns : String) (nd : models.DomainInfo) (w out : World)
    (hout : out = compareAndStore env o domain (Except.error err) dm sp ns nd w) :
    w.trace <+: out.trace ∧
    notifiedEvents out.trace = notifiedEvents w.trace ∧
    historyInserts out.trace = historyInserts w.trace ++ [nd] ∧
    out.db.domain_info_history = w.db.domain_info_history ++
      (if env.storeFault w.tick = none then [{ nd with Status := true }] else []) := by
  unfold compareAndStore at hout
  dsimp only at hout
  exact insertAndLog_spec env nd w
    ("Error trying to insert first history for domain " ++ domain.Name ++ ": ") out
    (by rw [hout])

/-- Lines 53-96 of main are quiet. -/
theorem fetchAndWriteBack_quiet (env : Env) (domain : models.DomainInfo) (w0 : World) :
    Quiet w0 (fetchAndWriteBack env domain w0).w := by
  have qm : ∀ (w : World) (r : Except String (List String)) (m : String), Quiet w
      (match r with
      | Except.error _ => w.emit (Effect.log m)
      | Except.ok _ => w) := by
    intro w r m
    split
    · exact Quiet.emit_log _ _
    · exact Quiet.refl _
  have qi : ∀ (w : World) (c : Bool) (m : String), Quiet w
      (if c = true then w.emit (Effect.log m) else w) := by
    intro w c m
    split
    · exact Quiet.emit_log _ _
    · exact Quiet.refl _
  have qr : ∀ (r : Except String models.DomainInfo × World) (m : String), Quiet r.2
      (match r.1 with
      | Except.error _ => r.2.emit (Effect.log m)
      | Except.ok _ => r.2) := by
    intro r m
    split
    · exact Quiet.emit_log _ _
    · exact Quiet.refl _
  have qj : ∀ (r : List (String × String) × World), Quiet r.2
      (if r.1.length > 0 then
        ((joinMapByColon env r.1 r.2).1,
          (database.UpdateWhois env domain.Name (joinMapByColon env r.1 r.2).1
            (joinMapByColon env r.1 r.2).2).2)
      else ("", r.2)).2 := by
    intro r
    split
    · exact Quiet.trans (Quiet.joinMapByColon env _ _) (Quiet.UpdateWhois env domain.Name _ _)
    · exact Quiet.refl _
  have h0 := Quiet.GetDomainInfoHistory env domain.Name w0
  have h1 := h0.trans (Quiet.emit_log _ (Sprintln ["Domain being checked: ", domain.Name]))
  have h2 := h1.trans (qm _ (dnsquery.GetNSRecords env domain.Name)
    (Sprintln ["Domain NS Record not found ", domain.Name]))
  have h3 := h2.trans (Quiet.UpdateNS env domain.Name
    (nsRecordcomma (dnsquery.GetNSRecords env domain.Name)) _)
  have h4 := h3.trans (qi _ (dnsquery.GetDMARCRecord env domain.Name).2.isSome
    (Sprintln ["Domain DMARC Record not found ", domain.Name]))
  have h5 := h4.trans (Quiet.UpdateDMARC env domain.Name
    (dnsquery.GetDMARCRecord env domain.Name).1 _)
  have h6 := h5.trans (qi _ (dnsquery.GetSPFRecord env domain.Name).2.isSome
    (Sprintln ["Domain SPF Record not found ", domain.Name]))
  have h7 := h6.trans (Quiet.UpdateSPF env domain.Name
    (dnsquery.GetSPFRecord env domain.Name).1 _)
  have h8 := h7.trans (Quiet.GetDomainInfo env domain.Name _)
  have h9 := h8.trans (qr _ (Sprintln ["Error geting info for domain Name:", domain.Name]))
  have h10 := h9.trans (Quiet.GetAllDatesFromWhois env domain.Name _)
  have h11 := h10.trans (qj _)
  exact h11

/-- A completed iteration went through line 98 with a record from GetDomainInfo. -/
theorem mainLoopBody_done (env : Env) (o : Observer) (domain : models.DomainInfo)
    (w0 w1 : World) (hrun : mainLoopBody env o domain w0 = Outcome.done w1) :
    ∃ (domainRec : models.DomainInfo) (now : Nat) (whois : String) (wp : World),
      Quiet w0 wp ∧
      w1 = compareAndStore env o domain (database.GetDomainInfoHistory env domain.Name w0).1
        (dnsquery.GetDMARCRecord env domain.Name).1 (dnsquery.GetSPFRecord env domain.Name).1
        (nsRecordcomma (dnsquery.GetNSRecords env domain.Name))
        (newDomainInfo domainRec now (dnsquery.GetDMARCRecord env domain.Name).1
          (dnsquery.GetSPFRecord env domain.Name).1
          (nsRecordcomma (dnsquery.GetNSRecords env domain.Name)) whois) wp := by
  unfold mainLoopBody at hrun
  dsimp only at hrun
  split at hrun
  · exact absurd hrun (by simp)
  · rename_i domainRec _
    refine ⟨domainRec, (timeNow env (fetchAndWriteBack env domain w0).w).1,
      (fetchAndWriteBack env domain w0).whois,
      (timeNow env (fetchAndWriteBack env domain w0).w).2, ?_, ?_⟩
    · exact (fetchAndWriteBack_quiet env domain w0).trans (Quiet.next _)
    · injection hrun with hrun
      exact hrun.symm

/-- A completed iteration that found a stored snapshot. -/
theorem mainLoopBody_found (env : Env) (o : Observer) (domain stored : models.DomainInfo)
    (w0 w1 : World)
    (hstored : (database.GetDomainInfoHistory env domain.Name w0).1 = Except.ok stored)
    (hrun : mainLoopBody env o domain w0 = Outcome.done w1) :
    ∃ (nd : models.DomainInfo) (t1 t2 t3 : Nat),
      nd.Spf = (dnsquery.GetSPFRecord env domain.Name).1 ∧
      nd.Dmarc = (dnsquery.GetDMARCRecord env domain.Name).1 ∧
      nd.Nameservers = nsRecordcomma (dnsquery.GetNSRecords env domain.Name) ∧
      notifiedEvents (newEffects w0 w1) =
        ((if nd.Dmarc ≠ stored.Dmarc then [changeEvent events.EventTypeDmarc t1 nd stored]
          else []) ++
         ((if nd.Spf ≠ stored.Spf then [changeEvent events.EventTypeSpf t2 nd stored] else []) ++
          (if nd.Nameservers ≠ stored.Nameservers then
            [changeEvent events.EventTypeNameservers t3 nd stored] else []))) ∧
      historyInserts (newEffects w0 w1) =
        (if nd.Dmarc = stored.Dmarc ∧ nd.Spf = stored.Spf ∧
            nd.Nameservers = stored.Nameservers then [] else [nd]) ∧
      (nd.Dmarc = stored.Dmarc ∧ nd.Spf = stored.Spf ∧ nd.Nameservers = stored.Nameservers →
        w1.db.domain_info_history = w0.db.domain_info_history) ∧
      (w1.db.domain_info_history = w0.db.domain_info_history ∨
        w1.db.domain_info_history = w0.db.domain_info_history ++ [{ nd with Status := true }]) ∧
      ((∀ n, env.storeFault n = none) →
        ¬ (nd.Dmarc = stored.Dmarc ∧ nd.Spf = stored.Spf ∧
          nd.Nameservers = stored.Nameservers) →
        w1.db.domain_info_history = w0.db.domain_info_history ++ [{ nd with Status := true }]) := by
  obtain ⟨domainRec, now, whois, wp, q, hw1⟩ := mainLoopBody_done env o domain w0 w1 hrun
  rw [hstored] at hw1
  obtain ⟨t1, t2, t3, p, n, i, hsame, hor, hno⟩ :=
    compareAndStore_found env o domain stored _ _ _ _ wp w1 hw1
  refine ⟨newDomainInfo domainRec now (dnsquery.GetDMARCRecord env domain.Name).1
    (dnsquery.GetSPFRecord env domain.Name).1
    (nsRecordcomma (dnsquery.GetNSRecords env domain.Name)) whois,
    t1, t2, t3, rfl, rfl, rfl, ?_, ?_, ?_, ?_, ?_⟩
  · exact notifiedEvents_newEffects w0 w1 _ (q.pre.trans p) (by rw [n, q.notified]; rfl)
  · exact historyInserts_newEffects w0 w1 _ (q.pre.trans p) (by rw [i, q.inserts]; rfl)
  · intro h; rw [← q.history]; exact hsame h
  · rw [← q.history]; exact hor
  · intro h1 h2; rw [← q.history]; exact hno h1 h2

/-! ## When an iteration completes -/

/-- The record read at line 79 comes from GetDomainInfo in a world reached
from the start of the iteration by quiet steps. -/
theorem fetchAndWriteBack_domainRec (env : Env) (domain : models.DomainInfo) (w0 : World) :
    ∃ w7 : World, Quiet w0 w7 ∧
      (fetchAndWriteBack env domain w0).domainRec =
        (database.GetDomainInfo env domain.Name w7).1 := by
  have qm : ∀ (w : World) (r : Except String (List String)) (m : String), Quiet w
      (match r with
      | Except.error _ => w.emit (Effect.log m)
      | Except.ok _ => w) := by
    intro w r m
    split
    · exact Quiet.emit_log _ _
    · exact Quiet.refl _
  have qi : ∀ (w : World) (c : Bool) (m : String), Quiet w
      (if c = true then w.emit (Effect.log m) else w) := by
    intro w c m
    split
    · exact Quiet.emit_log _ _
    · exact Quiet.refl _
  have h0 := Quiet.GetDomainInfoHistory env domain.Name w0
  have h1 := h0.trans (Quiet.emit_log _ (Sprintln ["Domain being checked: ", domain.Name]))
  have h2 := h1.trans (qm _ (dnsquery.GetNSRecords env domain.Name)
    (Sprintln ["Domain NS Record not found ", domain.Name]))
  have h3 := h2.trans (Quiet.UpdateNS env domain.Name
    (nsRecordcomma (dnsquery.GetNSRecords env domain.Name)) _)
  have h4 := h3.trans (qi _ (dnsquery.GetDMARCRecord env domain.Name).2.isSome
    (Sprintln ["Domain DMARC Record not found ", domain.Name]))
  have h5 := h4.trans (Quiet.UpdateDMARC env domain.Name
    (dnsquery.GetDMARCRecord env domain.Name).1 _)
  have h6 := h5.trans (qi _ (dnsquery.GetSPFRecord env domain.Name).2.isSome
    (Sprintln ["Domain SPF Record not found ", domain.Name]))
  have h7 := h6.trans (Quiet.UpdateSPF env domain.Name
    (dnsquery.GetSPFRecord env domain.Name).1 _)
  exact ⟨_, h7, rfl⟩

/-- GetDomainInfo finds the row of a name that is in the table when its
statement does not fail. -/
theorem GetDomainInfo_ok (env : Env) (n : String) (w : World)
    (hno : env.storeFault w.tick = none)
    (hrow : n ∈ w.db.domain_info.map (fun r => r.Name)) :
    ∃ r, (database.GetDomainInfo env n w).1 = Except.ok r := by
  unfold database.GetDomainInfo
  rw [hno]
  dsimp only
  cases hf : w.db.domain_info.find? (fun row => decide (row.Name = n)) with
  | some r => exact ⟨r, rfl⟩
  | none =>
    exfalso
    rw [List.find?_eq_none] at hf
    obtain ⟨r, hr, hn⟩ := List.mem_map.mp hrow
    exact hf r hr (by simpa using hn)

/-- With a database that answers every statement, the iteration for a domain
that has its row in domain_info completes. -/
theorem mainLoopBody_completes (env : Env) (o : Observer) (domain : models.DomainInfo)
    (w0 : World) (hno : ∀ n, env.storeFault n = none)
    (hrow : domain.Name ∈ w0.db.domain_info.map (fun r => r.Name)) :
    ∃ w1, mainLoopBody env o domain w0 = Outcome.done w1 := by
  obtain ⟨w7, q, hrec⟩ := fetchAndWriteBack_domainRec env domain w0
  obtain ⟨r, hr⟩ := GetDomainInfo_ok env domain.Name w7 (hno _) (by rw [q.names]; exact hrow)
  unfold mainLoopBody
  dsimp only
  rw [hrec, hr]
  exact ⟨_, rfl⟩

/-! ## Two direct consequences of the definitions -/

/-- The loop that builds nsRecordcomma, from any starting text. -/
theorem nsLoop_shift (l : List String) :
    ∀ init : String,
      l.foldl (fun acc ns => acc ++ ", " ++ ns) init =
        init ++ l.foldl (fun acc ns => acc ++ ", " ++ ns) "" := by
  induction l with
  | nil => intro init; simp
  | cons x xs ih =>
    intro init
    rw [List.foldl_cons, List.foldl_cons, ih (init ++ ", " ++ x), ih ("" ++ ", " ++ x)]
    simp [String.append_assoc]

/-- Every name server is preceded by the separator, the first one too. -/
theorem nsRecordcomma_cons (ns : String) (rest : List String) :
    nsRecordcomma (Except.ok (ns :: rest)) =
      ", " ++ ns ++ nsRecordcomma (Except.ok rest) := by
  unfold nsRecordcomma
  dsimp only
  rw [List.foldl_cons, nsLoop_shift]
  simp

/-- Whenever GetDomainInfo fails for the first domain of the list, the loop
of main ends there with the nil-pointer panic. -/
theorem mainLoop_panics (env : Env) (o : Observer) (domain : models.DomainInfo)
    (rest : List models.DomainInfo) (w : World) (e : String)
    (h : (fetchAndWriteBack env domain w).domainRec = Except.error e) :
    mainLoop env o (domain :: rest) w =
      Outcome.panicked nilPointerDereference (fetchAndWriteBack env domain w).w := by
  unfold mainLoop mainLoopBody
  simp [h]

/-! ## The record of the domain -/

theorem identities_emit (w : World) (e : Effect) : identities (w.emit e) = identities w := rfl

theorem identities_next (w : World) : identities w.next = identities w := rfl

theorem identities_updateRows (env : Env) (n : String)
    (set : models.DomainInfo → models.DomainInfo) (call : Effect) (w : World)
    (h : ∀ r, identity (set r) = identity r) :
    identities (database.updateRows env n set call w).2 = identities w := by
  unfold database.updateRows
  split
  · rfl
  · simp only [identities, List.map_map]
    apply List.map_congr_left
    intro r _
    by_cases hr : r.Name = n
    · have := h r
      simp only [identity, Prod.mk.injEq] at this
      simp [hr, identity, this]
    · simp [hr]

theorem identities_GetDomainInfoHistory (env : Env) (n : String) (w : World) :
    identities (database.GetDomainInfoHistory env n w).2 = identities w := by
  unfold database.GetDomainInfoHistory
  split
  · rfl
  · split <;> rfl

/-- The record read at line 79 comes from GetDomainInfo in a world whose
domain_info rows have the never-written columns of the rows at the start of
the iteration. -/
theorem fetchAndWriteBack_domainRec_rows (env : Env) (domain : models.DomainInfo)
    (w0 : World) :
    ∃ w7 : World, identities w7 = identities w0 ∧
      (fetchAndWriteBack env domain w0).domainRec =
        (database.GetDomainInfo env domain.Name w7).1 := by
  have qm : ∀ (w : World) (r : Except String (List String)) (m : String), identities
      (match r with
      | Except.error _ => w.emit (Effect.log m)
      | Except.ok _ => w) = identities w := by
    intro w r m
    split <;> rfl
  have qi : ∀ (w : World) (c : Bool) (m : String), identities
      (if c = true then w.emit (Effect.log m) else w) = identities w := by
    intro w c m
    split <;> rfl
  have h0 := identities_GetDomainInfoHistory env domain.Name w0
  have h1 := (identities_emit _
    (Effect.log (Sprintln ["Domain being checked: ", domain.Name]))).trans h0
  have h2 := (qm _ (dnsquery.GetNSRecords env domain.Name)
    (Sprintln ["Domain NS Record not found ", domain.Name])).trans h1
  have h3 := (identities_updateRows env domain.Name
    (fun row => { row with
      Nameservers := nsRecordcomma (dnsquery.GetNSRecords env domain.Name) })
    (Effect.UpdateNS domain.Name (nsRecordcomma (dnsquery.GetNSRecords env domain.Name)))
    _ (fun _ => rfl)).trans h2
  have h4 := (qi _ (dnsquery.GetDMARCRecord env domain.Name).2.isSome
    (Sprintln ["Domain DMARC Record not found ", domain.Name])).trans h3
  have h5 := (identities_updateRows env domain.Name
    (fun row => { row with Dmarc := (dnsquery.GetDMARCRecord env domain.Name).1 })
    (Effect.UpdateDMARC domain.Name (dnsquery.GetDMARCRecord env domain.Name).1)
    _ (fun _ => rfl)).trans h4
  have h6 := (qi _ (dnsquery.GetSPFRecord env domain.Name).2.isSome
    (Sprintln ["Domain SPF Record not found ", domain.Name])).trans h5
  have h7 := (identities_updateRows env domain.Name
    (fun row => { row with Spf := (dnsquery.GetSPFRecord env domain.Name).1 })
    (Effect.UpdateSPF domain.Name (dnsquery.GetSPFRecord env domain.Name).1)
    _ (fun _ => rfl)).trans h6
  exact ⟨_, h7, rfl⟩

theorem find_of_identities (n : String) :
    ∀ (l1 l2 : List models.DomainInfo), l1.map identity = l2.map identity →
      ∀ a, l1.find? (fun row => decide (row.Name = n)) = some a →
        ∃ b, l2.find? (fun row => decide (row.Name = n)) = some b ∧
          identity a = identity b := by
  intro l1
  induction l1 with
  | nil => intro l2 _ a h; simp at h
  | cons x xs ih =>
    intro l2 hmap a h
    cases l2 with
    | nil => simp at hmap
    | cons y ys =>
      simp only [List.map_cons, List.cons.injEq] at hmap
      obtain ⟨hxy, htl⟩ := hmap
      have hname : x.Name = y.Name := by
        have := congrArg Prod.fst hxy
        simpa [identity] using this
      by_cases hx : x.Name = n
      · have hy : y.Name = n := hname ▸ hx
        simp only [List.find?_cons, hx, decide_True] at h
        simp only [List.find?_cons, hy, decide_True]
        injection h with h
        subst h
        exact ⟨y, rfl, hxy⟩
      · have hy : ¬ y.Name = n := fun hy => hx (hname.trans hy)
        simp only [List.find?_cons, hx, decide_False] at h
        simp only [List.find?_cons, hy, decide_False]
        exact ih ys htl a h

/-- The record GetDomainInfo returns is the first row of that name. -/
theorem GetDomainInfo_row (env : Env) (n : String) (w : World) (r : models.DomainInfo)
    (h : (database.GetDomainInfo env n w).1 = Except.ok r) :
    w.db.domain_info.find? (fun row => decide (row.Name = n)) = some r := by
  unfold database.GetDomainInfo at h
  split at h
  · exact absurd h (by simp)
  · split at h
    · exact absurd h (by simp)
    · rename_i d hd
      injection h with h
      rw [hd, h]

/-! ## The WHOIS summary of an iteration -/

theorem GetAllDatesFromWhois_map_indep (env : Env) (n : String) (w w1 : World) :
    (dnsquery.GetAllDatesFromWhois env n w).1 = (dnsquery.GetAllDatesFromWhois env n w1).1 := by
  unfold dnsquery.GetAllDatesFromWhois dnsquery.GetWhois dnsquery.whoisImpl
  dsimp only
  cases env.whois n with
  | error e => rfl
  | ok r => rfl

/-- The WHOIS summary of an iteration: empty when the map is empty, otherwise
the entries key:value in the order of the range statement, joined by ", ". -/
theorem fetchAndWriteBack_whois (env : Env) (domain : models.DomainInfo) (w0 : World) :
    ∃ t : Nat, (fetchAndWriteBack env domain w0).whois =
      (if (dnsquery.GetAllDatesFromWhois env domain.Name w0).1.length > 0 then
        stringsJoin ((env.mapRange t (dnsquery.GetAllDatesFromWhois env domain.Name w0).1).map
          (fun kv => kv.1 ++ ":" ++ kv.2)) ", "
      else "") := by
  have hj : ∀ r : List (String × String) × World,
      (if r.1.length > 0 then
        ((joinMapByColon env r.1 r.2).1,
          (database.UpdateWhois env domain.Name (joinMapByColon env r.1 r.2).1
            (joinMapByColon env r.1 r.2).2).2)
      else ("", r.2)).1 =
      (if r.1.length > 0 then
        stringsJoin ((env.mapRange r.2.tick r.1).map (fun kv => kv.1 ++ ":" ++ kv.2)) ", "
      else "") := by
    intro r
    split <;> rfl
  obtain ⟨w8, hw8⟩ : ∃ w8 : World, (fetchAndWriteBack env domain w0).whois =
      (if (dnsquery.GetAllDatesFromWhois env domain.Name w8).1.length > 0 then
        ((joinMapByColon env (dnsquery.GetAllDatesFromWhois env domain.Name w8).1
            (dnsquery.GetAllDatesFromWhois env domain.Name w8).2).1,
          (database.UpdateWhois env domain.Name
            (joinMapByColon env (dnsquery.GetAllDatesFromWhois env domain.Name w8).1
              (dnsquery.GetAllDatesFromWhois env domain.Name w8).2).1
            (joinMapByColon env (dnsquery.GetAllDatesFromWhois env domain.Name w8).1
              (dnsquery.GetAllDatesFromWhois env domain.Name w8).2).2).2)
      else ("", (dnsquery.GetAllDatesFromWhois env domain.Name w8).2)).1 := ⟨_, rfl⟩
  refine ⟨(dnsquery.GetAllDatesFromWhois env domain.Name w8).2.tick, ?_⟩
  rw [hw8, hj, GetAllDatesFromWhois_map_indep env domain.Name w8 w0]

/-! ## The claims -/

/-- A completed iteration, with the record of line 79 and the snapshot of
lines 98-110 spelled out. -/
theorem mainLoopBody_done_exact (env : Env) (o : Observer) (domain : models.DomainInfo)
    (w0 w1 : World) (hrun : mainLoopBody env o domain w0 = Outcome.done w1) :
    ∃ domainRec : models.DomainInfo,
      (fetchAndWriteBack env domain w0).domainRec = Except.ok domainRec ∧
      w1 = compareAndStore env o domain (database.GetDomainInfoHistory env domain.Name w0).1
        (dnsquery.GetDMARCRecord env domain.Name).1 (dnsquery.GetSPFRecord env domain.Name).1
        (nsRecordcomma (dnsquery.GetNSRecords env domain.Name))
        (newDomainInfo domainRec (env.clock (fetchAndWriteBack env domain w0).w.tick)
          (dnsquery.GetDMARCRecord env domain.Name).1
          (dnsquery.GetSPFRecord env domain.Name).1
          (nsRecordcomma (dnsquery.GetNSRecords env domain.Name))
          (fetchAndWriteBack env domain w0).whois)
        (timeNow env (fetchAndWriteBack env domain w0).w).2 := by
  unfold mainLoopBody at hrun
  dsimp only at hrun
  split at hrun
  · exact absurd hrun (by simp)
  · rename_i domainRec heq
    refine ⟨domainRec, heq, ?_⟩
    injection hrun with hrun
    exact hrun.symm

/-- C1: in a completed iteration of the loop of main that found a stored
history snapshot, the events passed to Observer.Notify are, up to order,
exactly one change event per field among SPF, DMARC and nameserver string
whose fetched value differs from the stored one; each carries its event type,
the action ACTION_CHANGE, the new snapshot and the stored snapshot; so their
number is the number of differing fields.  The new snapshot nd is the one
main builds at lines 98-110: name, registrar, state, tier and transfer target
of the record domainRec that GetDomainInfo returned, which are those of the
first row of that name in domain_info at the start of the iteration, the
reading of the clock as last-check time, the fetched SPF and DMARC records,
the nameserver string, status true and the WHOIS summary of this iteration. -/
theorem C1_one_event_per_changed_field (env : Env) (o : Observer)
    (domain stored : models.DomainInfo) (w0 w1 : World)
    (hstored : (database.GetDomainInfoHistory env domain.Name w0).1 = Except.ok stored)
    (hrun : mainLoopBody env o domain w0 = Outcome.done w1) :
    ∃ (domainRec nd : models.DomainInfo) (w7 : World) (tS tD tN tW : Nat),
      (fetchAndWriteBack env domain w0).domainRec = Except.ok domainRec ∧
      Quiet w0 w7 ∧
      (database.GetDomainInfo env domain.Name w7).1 = Except.ok domainRec ∧
      nd =
        { Name := domainRec.Name,
          Registrar := domainRec.Registrar,
          State := domainRec.State,
          Tier := domainRec.Tier,
          TransferTo := domainRec.TransferTo,
          LastCheck := env.clock (fetchAndWriteBack env domain w0).w.tick,
          Spf := (dnsquery.GetSPFRecord env domain.Name).1,
          Dmarc := (dnsquery.GetDMARCRecord env domain.Name).1,
          Nameservers := nsRecordcomma (dnsquery.GetNSRecords env domain.Name),
          Status := true,
          Whois := (fetchAndWriteBack env domain w0).whois } ∧
      (∃ row0 : models.DomainInfo,
        w0.db.domain_info.find? (fun row => decide (row.Name = domain.Name)) = some row0 ∧
        nd.Name = row0.Name ∧ nd.Registrar = row0.Registrar ∧ nd.State = row0.State ∧
        nd.Tier = row0.Tier ∧ nd.TransferTo = row0.TransferTo) ∧
      nd.Whois =
        (if (dnsquery.GetAllDatesFromWhois env domain.Name w0).1.length > 0 then
          stringsJoin
            ((env.mapRange tW (dnsquery.GetAllDatesFromWhois env domain.Name w0).1).map
              (fun kv => kv.1 ++ ":" ++ kv.2)) ", "
        else "") ∧
      nd.Spf = (dnsquery.GetSPFRecord env domain.Name).1 ∧
      nd.Dmarc = (dnsquery.GetDMARCRecord env domain.Name).1 ∧
      nd.Nameservers = nsRecordcomma (dnsquery.GetNSRecords env domain.Name) ∧
      List.Perm (notifiedEvents (newEffects w0 w1))
        ((if nd.Spf ≠ stored.Spf then
            [({ EventType := events.EventTypeSpf, EventAction := events.EventActionChange,
                ExecuteTime := tS, DomainInfo := nd, DomainInfoPrev := stored } : events.Event)]
          else []) ++
         ((if nd.Dmarc ≠ stored.Dmarc then
            [({ EventType := events.EventTypeDmarc, EventAction := events.EventActionChange,
                ExecuteTime := tD, DomainInfo := nd, DomainInfoPrev := stored } : events.Event)]
          else []) ++
          (if nd.Nameservers ≠ stored.Nameservers then
            [({ EventType := events.EventTypeNameservers,
                EventAction := events.EventActionChange,
                ExecuteTime := tN, DomainInfo := nd, DomainInfoPrev := stored } : events.Event)]
          else []))) ∧
      (notifiedEvents (newEffects w0 w1)).length =
        (if nd.Spf ≠ stored.Spf then 1 else 0) + (if nd.Dmarc ≠ stored.Dmarc then 1 else 0) +
          (if nd.Nameservers ≠ stored.Nameservers then 1 else 0) := by
  obtain ⟨domainRec, hrec, hw1⟩ := mainLoopBody_done_exact env o domain w0 w1 hrun
  obtain ⟨w7, q7, hrec7⟩ := fetchAndWriteBack_domainRec env domain w0
  obtain ⟨tW, hwhois⟩ := fetchAndWriteBack_whois env domain w0
  rw [hstored] at hw1
  obtain ⟨t1, t2, t3, p, n, _⟩ := compareAndStore_found env o domain stored _ _ _ _ _ w1 hw1
  have q : Quiet w0 (timeNow env (fetchAndWriteBack env domain w0).w).2 :=
    (fetchAndWriteBack_quiet env domain w0).trans (Quiet.next _)
  have hev := notifiedEvents_newEffects w0 w1 _ (q.pre.trans p) (by rw [n, q.notified])
  refine ⟨domainRec,
    newDomainInfo domainRec (env.clock (fetchAndWriteBack env domain w0).w.tick)
      (dnsquery.GetDMARCRecord env domain.Name).1 (dnsquery.GetSPFRecord env domain.Name).1
      (nsRecordcomma (dnsquery.GetNSRecords env domain.Name))
      (fetchAndWriteBack env domain w0).whois,
    w7, t2, t1, t3, tW, hrec, q7, ?_, rfl, ?_, hwhois, rfl, rfl, rfl, ?_, ?_⟩
  · rw [← hrec7]; exact hrec
  · obtain ⟨w7r, hid, hrecr⟩ := fetchAndWriteBack_domainRec_rows env domain w0
    have hfind := GetDomainInfo_row env domain.Name w7r domainRec (by rw [← hrecr]; exact hrec)
    obtain ⟨row0, hrow0, hident⟩ := find_of_identities domain.Name w7r.db.domain_info
      w0.db.domain_info hid domainRec hfind
    simp only [identity, Prod.mk.injEq] at hident
    exact ⟨row0, hrow0, hident.1, hident.2.1, hident.2.2.1, hident.2.2.2.1, hident.2.2.2.2⟩
  · rw [hev]
    simp only [changeEvent, ← List.append_assoc]
    exact List.Perm.append_right _ List.perm_append_comm
  · rw [hev]
    simp only [newDomainInfo]
    by_cases a : (dnsquery.GetSPFRecord env domain.Name).1 = stored.Spf <;>
      by_cases b : (dnsquery.GetDMARCRecord env domain.Name).1 = stored.Dmarc <;>
      by_cases c : nsRecordcomma (dnsquery.GetNSRecords env domain.Name) =
        stored.Nameservers <;> simp [a, b, c]

theorem C1_one_event_per_changed_field_witness :
    (database.GetDomainInfoHistory scenario.env scenario.exampleCom.Name
        (scenario.world [scenario.storedSpf])).1 = Except.ok scenario.storedSpf ∧
    mainLoopBody scenario.env scenario.observer scenario.exampleCom
        (scenario.world [scenario.storedSpf]) =
      Outcome.done (mainLoopBody scenario.env scenario.observer scenario.exampleCom
        (scenario.world [scenario.storedSpf])).world ∧
    (notifiedEvents (newEffects (scenario.world [scenario.storedSpf])
      (mainLoopBody scenario.env scenario.observer scenario.exampleCom
        (scenario.world [scenario.storedSpf])).world)).length = 1 :=
  ⟨rfl, by decide, by
    obtain ⟨_, nd, _, _, _, _, _, _, _, _, _, _, _, hs, hd, hn, _, hl⟩ :=
      C1_one_event_per_changed_field scenario.env
      scenario.observer scenario.exampleCom scenario.storedSpf
      (scenario.world [scenario.storedSpf])
      (mainLoopBody scenario.env scenario.observer scenario.exampleCom
        (scenario.world [scenario.storedSpf])).world rfl (by decide)
    rw [hl, hs, hd, hn]
    decide⟩

theorem GetDomainInfoHistory_none (env : Env) (n : String) (w : World)
    (h : ∀ r ∈ w.db.domain_info_history, r.Name ≠ n) :
    ∃ err, (database.GetDomainInfoHistory env n w).1 = Except.error err := by
  unfold database.GetDomainInfoHistory
  split
  · exact ⟨_, rfl⟩
  · have hf : w.db.domain_info_history.find? (fun r => decide (r.Name = n)) = none := by
      rw [List.find?_eq_none]
      intro r hr
      simpa using h r hr
    rw [hf]
    exact ⟨_, rfl⟩

/-- C2: in a completed iteration of the loop of main that found a stored
history snapshot, InsertDomainHistory is called exactly once, with the new
snapshot, when at least one of SPF, DMARC and nameserver string differs from
the stored snapshot, and not at all when the three are equal, whatever the
other fields are; in the latter case the history table is unchanged, and in
every case it gains at most the one row. -/
theorem C2_history_once_iff_changed (env : Env) (o : Observer)
    (domain stored : models.DomainInfo) (w0 w1 : World)
    (hstored : (database.GetDomainInfoHistory env domain.Name w0).1 = Except.ok stored)
    (hrun : mainLoopBody env o domain w0 = Outcome.done w1) :
    ∃ nd : models.DomainInfo,
      nd.Spf = (dnsquery.GetSPFRecord env domain.Name).1 ∧
      nd.Dmarc = (dnsquery.GetDMARCRecord env domain.Name).1 ∧
      nd.Nameservers = nsRecordcomma (dnsquery.GetNSRecords env domain.Name) ∧
      historyInserts (newEffects w0 w1) =
        (if nd.Spf = stored.Spf ∧ nd.Dmarc = stored.Dmarc ∧
            nd.Nameservers = stored.Nameservers then [] else [nd]) ∧
      (nd.Spf = stored.Spf ∧ nd.Dmarc = stored.Dmarc ∧ nd.Nameservers = stored.Nameservers →
        w1.db.domain_info_history = w0.db.domain_info_history) ∧
      (w1.db.domain_info_history = w0.db.domain_info_history ∨
        w1.db.domain_info_history = w0.db.domain_info_history ++ [{ nd with Status := true }]) := by
  obtain ⟨nd, _, _, _, hs, hd, hn, _, hi, hsame, hor, _⟩ :=
    mainLoopBody_found env o domain stored w0 w1 hstored hrun
  refine ⟨nd, hs, hd, hn, ?_, ?_, hor⟩
  · rw [hi]
    by_cases c : nd.Dmarc = stored.Dmarc ∧ nd.Spf = stored.Spf ∧
        nd.Nameservers = stored.Nameservers
    · rw [if_pos c, if_pos ⟨c.2.1, c.1, c.2.2⟩]
    · rw [if_neg c, if_neg (fun h => c ⟨h.2.1, h.1, h.2.2⟩)]
  · intro h
    exact hsame ⟨h.2.1, h.1, h.2.2⟩

theorem C2_history_once_iff_changed_witness :
    (database.GetDomainInfoHistory scenario.env scenario.exampleCom.Name
        (scenario.world [scenario.storedSame])).1 = Except.ok scenario.storedSame ∧
    mainLoopBody scenario.env scenario.observer scenario.exampleCom
        (scenario.world [scenario.storedSame]) =
      Outcome.done (mainLoopBody scenario.env scenario.observer scenario.exampleCom
        (scenario.world [scenario.storedSame])).world ∧
    historyInserts (newEffects (scenario.world [scenario.storedSame])
      (mainLoopBody scenario.env scenario.observer scenario.exampleCom
        (scenario.world [scenario.storedSame])).world) = [] ∧
    (mainLoopBody scenario.env scenario.observer scenario.exampleCom
        (scenario.world [scenario.storedSame])).world.db.domain_info_history =
      [scenario.storedSame] :=
  ⟨rfl, by decide, by
    obtain ⟨nd, hs, hd, hn, hi, hsame, _⟩ := C2_history_once_iff_changed scenario.env
      scenario.observer scenario.exampleCom scenario.storedSame
      (scenario.world [scenario.storedSame])
      (mainLoopBody scenario.env scenario.observer scenario.exampleCom
        (scenario.world [scenario.storedSame])).world rfl (by decide)
    have heq : nd.Spf = scenario.storedSame.Spf ∧ nd.Dmarc = scenario.storedSame.Dmarc ∧
        nd.Nameservers = scenario.storedSame.Nameservers := by
      rw [hs, hd, hn]
      decide
    exact ⟨by rw [hi, if_pos heq], hsame heq⟩⟩

/-- C3: in a completed iteration of the loop of main for a domain without a
row in the history table, no event is passed to Observer.Notify and
InsertDomainHistory is called exactly once, with a snapshot carrying the
fetched SPF and DMARC records and the nameserver string built from the
fetched name servers; the table gains at most that row, and exactly that row
when no statement fails. -/
theorem C3_first_observation (env : Env) (o : Observer) (domain : models.DomainInfo)
    (w0 w1 : World)
    (hnone : ∀ r ∈ w0.db.domain_info_history, r.Name ≠ domain.Name)
    (hrun : mainLoopBody env o domain w0 = Outcome.done w1) :
    notifiedEvents (newEffects w0 w1) = [] ∧
    ∃ nd : models.DomainInfo,
      historyInserts (newEffects w0 w1) = [nd] ∧
      nd.Spf = (dnsquery.GetSPFRecord env domain.Name).1 ∧
      nd.Dmarc = (dnsquery.GetDMARCRecord env domain.Name).1 ∧
      nd.Nameservers = nsRecordcomma (dnsquery.GetNSRecords env domain.Name) ∧
      (w1.db.domain_info_history = w0.db.domain_info_history ∨
        w1.db.domain_info_history = w0.db.domain_info_history ++ [{ nd with Status := true }]) ∧
      ((∀ n, env.storeFault n = none) →
        w1.db.domain_info_history = w0.db.domain_info_history ++ [{ nd with Status := true }]) := by
  obtain ⟨err, herr⟩ := GetDomainInfoHistory_none env domain.Name w0 hnone
  obtain ⟨domainRec, now, whois, wp, q, hw1⟩ := mainLoopBody_done env o domain w0 w1 hrun
  rw [herr] at hw1
  obtain ⟨p, n, i, h⟩ := compareAndStore_first env o domain err _ _ _ _ wp w1 hw1
  refine ⟨notifiedEvents_newEffects w0 w1 [] (q.pre.trans p) (by rw [n, q.notified]; simp),
    newDomainInfo domainRec now (dnsquery.GetDMARCRecord env domain.Name).1
      (dnsquery.GetSPFRecord env domain.Name).1
      (nsRecordcomma (dnsquery.GetNSRecords env domain.Name)) whois,
    historyInserts_newEffects w0 w1 _ (q.pre.trans p) (by rw [i, q.inserts]),
    rfl, rfl, rfl, ?_, ?_⟩
  · rw [h, q.history]
    by_cases hf : env.storeFault wp.tick = none
    · right; rw [if_pos hf]
    · left; rw [if_neg hf]; simp
  · intro hno
    rw [h, q.history, if_pos (hno _)]

theorem C3_first_observation_witness :
    (∀ r ∈ (scenario.world []).db.domain_info_history, r.Name ≠ scenario.newCom.Name) ∧
    mainLoopBody scenario.env scenario.observer scenario.newCom (scenario.world []) =
      Outcome.done
        (mainLoopBody scenario.env scenario.observer scenario.newCom (scenario.world [])).world ∧
    notifiedEvents (newEffects (scenario.world [])
      (mainLoopBody scenario.env scenario.observer scenario.newCom
        (scenario.world [])).world) = [] ∧
    ∃ nd : models.DomainInfo,
      historyInserts (newEffects (scenario.world [])
        (mainLoopBody scenario.env scenario.observer scenario.newCom
          (scenario.world [])).world) = [nd] ∧
      nd.Spf = "v=spf1 ~all" ∧ nd.Dmarc = "" ∧
      (mainLoopBody scenario.env scenario.observer scenario.newCom
          (scenario.world [])).world.db.domain_info_history = [{ nd with Status := true }] :=
  ⟨by decide, by decide, by
    obtain ⟨hev, nd, hi, hs, hd, _, _, hrow⟩ := C3_first_observation scenario.env
      scenario.observer scenario.newCom (scenario.world [])
      (mainLoopBody scenario.env scenario.observer scenario.newCom (scenario.world [])).world
      (by decide) (by decide)
    refine ⟨hev, nd, hi, ?_, ?_, ?_⟩
    · rw [hs]; decide
    · rw [hd]; decide
    · exact hrow (fun _ => rfl)⟩


/-- C4, at the failing input: example.com has one stored history row with
the SPF record "v=spf1 ~all", and both runs fetch the same newer SPF record.
The first run reports the change and appends a row; the second run, with the
same fetch results, reads the older row again, reports the same SPF change
again and appends another row. -/
theorem C4_second_run_repeats_change :
    mainLoopBody scenario.env scenario.observer scenario.exampleCom
        (scenario.world [scenario.storedSpf]) = Outcome.done scenario.afterFirstRun ∧
    mainLoopBody scenario.env scenario.observer scenario.exampleCom scenario.afterFirstRun =
      Outcome.done scenario.afterSecondRun ∧
    (notifiedEvents (newEffects scenario.afterFirstRun scenario.afterSecondRun)).map
        (fun e => e.EventType) = [events.EventTypeSpf] ∧
    (historyInserts (newEffects scenario.afterFirstRun scenario.afterSecondRun)).length = 1 ∧
    scenario.afterFirstRun.db.domain_info_history.length = 2 ∧
    scenario.afterSecondRun.db.domain_info_history.length = 3 := by
  decide

/-- C8, at the failing input: two active domains, and the statement of
GetDomainInfo fails for the first one.  The error is logged, then reading the
nil record panics and main ends; the second domain is never looked at. -/
theorem C8_store_error_ends_the_run :
    main scenario.envFault scenario.smtp (scenario.world []) =
      Outcome.panicked nilPointerDereference
        (main scenario.envFault scenario.smtp (scenario.world [])).world ∧
    Sprintln ["Error geting info for domain Name:", "new.com"] ∈
      logLines (main scenario.envFault scenario.smtp (scenario.world [])).world.trace ∧
    Sprintln ["Domain being checked: ", "new.com"] ∈
      logLines (main scenario.envFault scenario.smtp (scenario.world [])).world.trace ∧
    Sprintln ["Domain being checked: ", "example.com"] ∉
      logLines (main scenario.envFault scenario.smtp (scenario.world [])).world.trace ∧
    (main scenario.env scenario.smtp (scenario.world [])).isDone = true ∧
    Sprintln ["Domain being checked: ", "example.com"] ∈
      logLines (main scenario.env scenario.smtp (scenario.world [])).world.trace := by
  decide

/-- C9, at the failing input: for the one name server ns1.new.com the loop
of main builds ", ns1.new.com", with the separator in front, and this is the
string written by UpdateNS and put in the snapshot. -/
theorem C9_leading_separator :
    nsRecordcomma (Except.ok ["ns1.new.com"]) = ", ns1.new.com" ∧
    nsRecordcomma (Except.ok ["ns1.new.com"]) ≠ "ns1.new.com" ∧
    dnsquery.GetNSRecords scenario.env "new.com" = Except.ok ["ns1.new.com"] ∧
    (fetchAndWriteBack scenario.env scenario.newCom (scenario.world [])).nsRecordcomma =
      ", ns1.new.com" ∧
    Effect.UpdateNS "new.com" ", ns1.new.com" ∈
      (fetchAndWriteBack scenario.env scenario.newCom (scenario.world [])).w.trace ∧
    (historyInserts (mainLoopBody scenario.env scenario.observer scenario.newCom
        (scenario.world [])).world.trace).map (fun d => d.Nameservers) = [", ns1.new.com"] := by
  refine ⟨by decide, by decide, rfl, by decide, by decide, by decide⟩

/-- C10, counterexample: all three fields of example.com differ from the
stored snapshot, and the events are passed in the order DMARC, SPF,
NAMESERVERS, not SPF, DMARC, NAMESERVERS. -/
theorem C10_counterexample :
    (database.GetDomainInfoHistory scenario.env scenario.exampleCom.Name
        (scenario.world [scenario.storedAll])).1 = Except.ok scenario.storedAll ∧
    (dnsquery.GetSPFRecord scenario.env scenario.exampleCom.Name).1 ≠ scenario.storedAll.Spf ∧
    (dnsquery.GetDMARCRecord scenario.env scenario.exampleCom.Name).1 ≠
      scenario.storedAll.Dmarc ∧
    nsRecordcomma (dnsquery.GetNSRecords scenario.env scenario.exampleCom.Name) ≠
      scenario.storedAll.Nameservers ∧
    (notifiedEvents (newEffects (scenario.world [scenario.storedAll])
      (mainLoopBody scenario.env scenario.observer scenario.exampleCom
        (scenario.world [scenario.storedAll])).world)).map (fun e => e.EventType) ≠
      [events.EventTypeSpf, events.EventTypeDmarc, events.EventTypeNameservers] := by
  refine ⟨rfl, by decide, by decide, by decide, by decide⟩

/-- C10, amended: in a completed iteration of the loop of main that found a
stored history snapshot, the event types passed to Observer.Notify are, in
this order, DMARC if the DMARC record differs, SPF if the SPF record differs,
NAMESERVERS if the nameserver string differs: always a subsequence of
[DMARC, SPF, NAMESERVERS], and the whole of it when all three differ. -/
theorem C10_order_dmarc_spf_nameservers (env : Env) (o : Observer)
    (domain stored : models.DomainInfo) (w0 w1 : World)
    (hstored : (database.GetDomainInfoHistory env domain.Name w0).1 = Except.ok stored)
    (hrun : mainLoopBody env o domain w0 = Outcome.done w1) :
    (notifiedEvents (newEffects w0 w1)).map (fun e => e.EventType) =
      ((if (dnsquery.GetDMARCRecord env domain.Name).1 ≠ stored.Dmarc then
          [events.EventTypeDmarc] else []) ++
       ((if (dnsquery.GetSPFRecord env domain.Name).1 ≠ stored.Spf then
          [events.EventTypeSpf] else []) ++
        (if nsRecordcomma (dnsquery.GetNSRecords env domain.Name) ≠ stored.Nameservers then
          [events.EventTypeNameservers] else []))) ∧
    List.Sublist ((notifiedEvents (newEffects w0 w1)).map (fun e => e.EventType))
      [events.EventTypeDmarc, events.EventTypeSpf, events.EventTypeNameservers] ∧
    ((dnsquery.GetSPFRecord env domain.Name).1 ≠ stored.Spf →
      (dnsquery.GetDMARCRecord env domain.Name).1 ≠ stored.Dmarc →
      nsRecordcomma (dnsquery.GetNSRecords env domain.Name) ≠ stored.Nameservers →
      (notifiedEvents (newEffects w0 w1)).map (fun e => e.EventType) =
        [events.EventTypeDmarc, events.EventTypeSpf, events.EventTypeNameservers]) := by
  obtain ⟨nd, t1, t2, t3, hs, hd, hn, hev, _⟩ :=
    mainLoopBody_found env o domain stored w0 w1 hstored hrun
  rw [hs, hd, hn] at hev
  have key : (notifiedEvents (newEffects w0 w1)).map (fun e => e.EventType) =
      ((if (dnsquery.GetDMARCRecord env domain.Name).1 ≠ stored.Dmarc then
          [events.EventTypeDmarc] else []) ++
       ((if (dnsquery.GetSPFRecord env domain.Name).1 ≠ stored.Spf then
          [events.EventTypeSpf] else []) ++
        (if nsRecordcomma (dnsquery.GetNSRecords env domain.Name) ≠ stored.Nameservers then
          [events.EventTypeNameservers] else []))) := by
    rw [hev]
    by_cases a : (dnsquery.GetDMARCRecord env domain.Name).1 = stored.Dmarc <;>
      by_cases b : (dnsquery.GetSPFRecord env domain.Name).1 = stored.Spf <;>
      by_cases c : nsRecordcomma (dnsquery.GetNSRecords env domain.Name) = stored.Nameservers <;>
      simp [a, b, c, changeEvent]
  refine ⟨key, ?_, ?_⟩
  · rw [key]
    by_cases a : (dnsquery.GetDMARCRecord env domain.Name).1 = stored.Dmarc <;>
      by_cases b : (dnsquery.GetSPFRecord env domain.Name).1 = stored.Spf <;>
      by_cases c : nsRecordcomma (dnsquery.GetNSRecords env domain.Name) = stored.Nameservers <;>
      simp [a, b, c]
  · intro b a c
    rw [key]
    simp [a, b, c]

theorem C10_order_dmarc_spf_nameservers_witness :
    (database.GetDomainInfoHistory scenario.env scenario.exampleCom.Name
        (scenario.world [scenario.storedAll])).1 = Except.ok scenario.storedAll ∧
    mainLoopBody scenario.env scenario.observer scenario.exampleCom
        (scenario.world [scenario.storedAll]) =
      Outcome.done (mainLoopBody scenario.env scenario.observer scenario.exampleCom
        (scenario.world [scenario.storedAll])).world ∧
    (notifiedEvents (newEffects (scenario.world [scenario.storedAll])
      (mainLoopBody scenario.env scenario.observer scenario.exampleCom
        (scenario.world [scenario.storedAll])).world)).map (fun e => e.EventType) =
      [events.EventTypeDmarc, events.EventTypeSpf, events.EventTypeNameservers] :=
  ⟨rfl, by decide,
    (C10_order_dmarc_spf_nameservers scenario.env scenario.observer scenario.exampleCom
      scenario.storedAll (scenario.world [scenario.storedAll])
      (mainLoopBody scenario.env scenario.observer scenario.exampleCom
        (scenario.world [scenario.storedAll])).world rfl (by decide)).2.2
      (by decide) (by decide) (by decide)⟩


theorem foldl_RegisterSubscriber (subs : List updater.Subscribers) :
    ∀ o : Observer,
      (subs.foldl Observer.RegisterSubscriber o).Subscribers = o.Subscribers ++ subs := by
  induction subs with
  | nil => intro o; simp
  | cons s rest ih =>
    intro o
    rw [List.foldl_cons, ih]
    simp [Observer.RegisterSubscriber]

/-- C5: registering s1..sn on an empty Observer gives the registry
[s1..sn], duplicates kept, and Notify(event) then calls Update(event) once on
every registry entry, in registration order, with that same event. -/
theorem C5_register_then_notify (subs : List updater.Subscribers) (env : Env)
    (event : events.Event) (w : World) :
    (subs.foldl Observer.RegisterSubscriber (Observer.mk [])).Subscribers = subs ∧
    updateCalls (newEffects w
      (Observer.Notify env (subs.foldl Observer.RegisterSubscriber (Observer.mk [])) event w)) =
      subs.map (fun s => (s, event)) := by
  have hreg : (subs.foldl Observer.RegisterSubscriber (Observer.mk [])).Subscribers = subs := by
    rw [foldl_RegisterSubscriber]
    simp
  refine ⟨hreg, ?_⟩
  obtain ⟨p, _, _, u, _⟩ :=
    Notify_spec env (subs.foldl Observer.RegisterSubscriber (Observer.mk [])) event w
  rw [hreg] at u
  exact updateCalls_newEffects w _ _ p u

/-- Notify, split at the subscriber with index k. -/
theorem Notify_split (env : Env) (o : Observer) (event : events.Event) (w : World) (k : Nat)
    (hk : k < o.Subscribers.length) :
    Observer.Notify env o event w =
      (o.Subscribers.drop (k + 1)).foldl
        (fun acc s => Subscribers.Update env s event acc)
        (Subscribers.Update env o.Subscribers[k] event
          (Observer.Notify env { Subscribers := o.Subscribers.take k } event w)) := by
  unfold Observer.Notify
  dsimp only
  conv_lhs => rw [← List.take_append_drop k o.Subscribers]
  rw [List.foldl_append, List.drop_eq_getElem_cons hk, List.foldl_cons]

/-- C6: when the loop of Notify has reached the subscriber with index k and
this subscriber fails to send its mail (the failure is logged), every later
subscriber of the registry still gets its Update(event) call, in order; Notify
ends normally with every table unchanged, and all N subscribers were called. -/
theorem C6_delivery_after_failure (env : Env) (o : Observer) (event : events.Event) (w : World)
    (k : Nat) (hk : k < o.Subscribers.length) (err : String)
    (hfail : Effect.log ("Failed to send email notification: " ++ err) ∈
      newEffects (Observer.Notify env { Subscribers := o.Subscribers.take k } event w)
        (Subscribers.Update env o.Subscribers[k] event
          (Observer.Notify env { Subscribers := o.Subscribers.take k } event w))) :
    updateCalls (newEffects
        (Subscribers.Update env o.Subscribers[k] event
          (Observer.Notify env { Subscribers := o.Subscribers.take k } event w))
        (Observer.Notify env o event w)) =
      (o.Subscribers.drop (k + 1)).map (fun s => (s, event)) ∧
    updateCalls (newEffects w (Observer.Notify env o event w)) =
      o.Subscribers.map (fun s => (s, event)) ∧
    Effect.log ("Failed to send email notification: " ++ err) ∈
      newEffects w (Observer.Notify env o event w) ∧
    (Observer.Notify env o event w).db = w.db := by
  obtain ⟨q, u, _⟩ := notifyLoop_spec env event (o.Subscribers.drop (k + 1))
    (Subscribers.Update env o.Subscribers[k] event
      (Observer.Notify env { Subscribers := o.Subscribers.take k } event w))
  rw [← Notify_split env o event w k hk] at q u
  obtain ⟨p, _, _, uall, d⟩ := Notify_spec env o event w
  obtain ⟨pk, _, _, _, _⟩ := Notify_spec env { Subscribers := o.Subscribers.take k } event w
  obtain ⟨qk, _, _⟩ := Update_spec env o.Subscribers[k] event
    (Observer.Notify env { Subscribers := o.Subscribers.take k } event w)
  refine ⟨updateCalls_newEffects _ _ _ q.pre u, updateCalls_newEffects w _ _ p uall, ?_, d⟩
  have e1 := trace_eq_append_newEffects _ _ qk.pre
  have e2 := trace_eq_append_newEffects _ _ q.pre
  have e3 := trace_eq_append_newEffects _ _ pk
  have e4 := trace_eq_append_newEffects _ _ p
  rw [e2, e1, e3, List.append_assoc, List.append_assoc] at e4
  have e5 := List.append_cancel_left e4
  rw [← e5]
  simp only [List.mem_append]
  exact Or.inr (Or.inl hfail)

theorem C6_delivery_after_failure_witness :
    1 < ({ Subscribers := [scenario.smtp, scenario.smtp2, scenario.smtp3] } :
      Observer).Subscribers.length ∧
    Effect.log ("Failed to send email notification: " ++ "dial tcp: connection refused") ∈
      newEffects
        (Observer.Notify scenario.envNoMail { Subscribers := [scenario.smtp] }
          scenario.spfEvent (scenario.world []))
        (Subscribers.Update scenario.envNoMail scenario.smtp2 scenario.spfEvent
          (Observer.Notify scenario.envNoMail { Subscribers := [scenario.smtp] }
            scenario.spfEvent (scenario.world []))) ∧
    updateCalls (newEffects
        (Subscribers.Update scenario.envNoMail scenario.smtp2 scenario.spfEvent
          (Observer.Notify scenario.envNoMail { Subscribers := [scenario.smtp] }
            scenario.spfEvent (scenario.world [])))
        (Observer.Notify scenario.envNoMail
          { Subscribers := [scenario.smtp, scenario.smtp2, scenario.smtp3] }
          scenario.spfEvent (scenario.world []))) =
      [(scenario.smtp3, scenario.spfEvent)] :=
  ⟨by decide, by decide,
    (C6_delivery_after_failure scenario.envNoMail
      { Subscribers := [scenario.smtp, scenario.smtp2, scenario.smtp3] }
      scenario.spfEvent (scenario.world []) 1 (by decide) "dial tcp: connection refused"
      (by decide)).1⟩

theorem UnregisterSubscriberLoop_eq (s : updater.Subscribers) :
    ∀ (rest pre : List updater.Subscribers),
      UnregisterSubscriberLoop s (pre ++ rest) pre.length rest = pre ++ rest.erase s := by
  intro rest
  induction rest with
  | nil => intro pre; simp [UnregisterSubscriberLoop]
  | cons x xs ih =>
    intro pre
    unfold UnregisterSubscriberLoop
    by_cases h : x = s
    · subst h
      simp
    · have := ih (pre ++ [x])
      simp only [List.append_assoc, List.singleton_append, List.length_append,
        List.length_singleton] at this
      rw [if_neg h, this]
      simp [List.erase_cons_tail, h]

theorem UnregisterSubscriber_eq_erase (o : Observer) (s : updater.Subscribers) :
    (o.UnregisterSubscriber s).Subscribers = o.Subscribers.erase s := by
  have := UnregisterSubscriberLoop_eq s o.Subscribers []
  simpa [Observer.UnregisterSubscriber] using this

/-- C7, counterexample: a subscriber registered twice is still in the
registry after UnregisterSubscriber. -/
theorem C7_counterexample :
    scenario.smtp ∈
      ((((Observer.mk []).RegisterSubscriber scenario.smtp).RegisterSubscriber
        scenario.smtp).UnregisterSubscriber scenario.smtp).Subscribers := by
  decide

/-- C7, amended: UnregisterSubscriber(s) removes the first occurrence of s.
The registry is unchanged when s was not in it; otherwise it is the part
before the first s followed by the part after it, so one entry shorter; all
subscribers other than s remain in their original relative order; and s is no
longer in the registry when it was registered at most once. -/
theorem C7_unregister_removes_first (o : Observer) (s : updater.Subscribers) :
    (s ∉ o.Subscribers → (o.UnregisterSubscriber s).Subscribers = o.Subscribers) ∧
    (s ∈ o.Subscribers →
      ∃ l1 l2, s ∉ l1 ∧ o.Subscribers = l1 ++ s :: l2 ∧
        (o.UnregisterSubscriber s).Subscribers = l1 ++ l2) ∧
    (o.UnregisterSubscriber s).Subscribers.filter (fun x => decide (x ≠ s)) =
      o.Subscribers.filter (fun x => decide (x ≠ s)) ∧
    (o.Subscribers.count s ≤ 1 → s ∉ (o.UnregisterSubscriber s).Subscribers) := by
  rw [UnregisterSubscriber_eq_erase]
  refine ⟨fun h => List.erase_of_not_mem h, fun h => List.exists_erase_eq h, ?_, ?_⟩
  · by_cases h : s ∈ o.Subscribers
    · obtain ⟨l1, l2, _, e1, e2⟩ := List.exists_erase_eq h
      rw [e2, e1]
      simp [List.filter_append, List.filter_cons]
    · rw [List.erase_of_not_mem h]
  · intro hc hmem
    have h1 : 0 < (o.Subscribers.erase s).count s := List.count_pos_iff.mpr hmem
    rw [List.count_erase_self] at h1
    omega

theorem C7_unregister_removes_first_witness :
    (((Observer.mk [scenario.smtp, scenario.smtp2, scenario.smtp3]).UnregisterSubscriber
        scenario.smtp2).Subscribers = [scenario.smtp, scenario.smtp3]) ∧
    scenario.smtp2 ∉ ((Observer.mk [scenario.smtp, scenario.smtp2,
      scenario.smtp3]).UnregisterSubscriber scenario.smtp2).Subscribers :=
  ⟨by decide,
    (C7_unregister_removes_first (Observer.mk [scenario.smtp, scenario.smtp2, scenario.smtp3])
      scenario.smtp2).2.2.2 (by decide)⟩

/-! ## The write-back of the fetched values -/

theorem storeWrites_append (a b : List Effect) :
    storeWrites (a ++ b) = storeWrites a ++ storeWrites b := by
  simp [storeWrites, List.filter_append]

theorem storeWrites_newEffects (w0 w1 : World) (l : List Effect) (h : Writes w0 w1 l) :
    storeWrites (newEffects w0 w1) = l := by
  have e := trace_eq_append_newEffects w0 w1 h.pre
  have hw := h.writes
  rw [e, storeWrites_append] at hw
  exact List.append_cancel_left hw

theorem Writes.reflW (w : World) : Writes w w [] := ⟨List.prefix_refl _, by simp⟩

theorem Writes.transW {a b c : World} {l1 l2 : List Effect} (h1 : Writes a b l1)
    (h2 : Writes b c l2) : Writes a c (l1 ++ l2) :=
  ⟨h1.pre.trans h2.pre, by rw [h2.writes, h1.writes, List.append_assoc]⟩

theorem Writes.then_none {a b c : World} {l : List Effect} (h1 : Writes a b l)
    (h2 : Writes b c []) : Writes a c l := by
  have := h1.transW h2
  simpa using this

theorem Writes.none_then {a b c : World} {l : List Effect} (h1 : Writes a b [])
    (h2 : Writes b c l) : Writes a c l := by
  have := h1.transW h2
  simpa using this

theorem Writes.emit (w : World) (e : Effect) (h : storeWrites [e] = []) :
    Writes w (w.emit e) [] := by
  constructor
  · simp [World.emit]
  · simp [World.emit, storeWrites_append, h]

theorem Writes.nextW (w : World) : Writes w w.next [] := by
  constructor <;> simp [World.next]

theorem Writes.updateRowsW (env : Env) (n : String)
    (set : models.DomainInfo → models.DomainInfo) (call : Effect) (w : World)
    (h : storeWrites [call] = [call]) :
    Writes w (database.updateRows env n set call w).2 [call] := by
  unfold database.updateRows
  split <;> constructor <;> simp [World.emit, World.next, storeWrites_append, h]

theorem Writes.GetDomainInfoHistoryW (env : Env) (n : String) (w : World) :
    Writes w (database.GetDomainInfoHistory env n w).2 [] := by
  unfold database.GetDomainInfoHistory
  split
  · exact Writes.nextW w
  · split <;> exact Writes.nextW w

theorem Writes.GetDomainInfoW (env : Env) (n : String) (w : World) :
    Writes w (database.GetDomainInfo env n w).2 [] := by
  unfold database.GetDomainInfo
  split
  · exact Writes.nextW w
  · split <;> exact Writes.nextW w

theorem Writes.GetAllDatesFromWhoisW (env : Env) (n : String) (w : World) :
    Writes w (dnsquery.GetAllDatesFromWhois env n w).2 [] := by
  unfold dnsquery.GetAllDatesFromWhois dnsquery.GetWhois dnsquery.whoisImpl
  dsimp only
  cases env.whois n with
  | error e => exact Writes.emit w _ rfl
  | ok r => exact Writes.reflW w

theorem Writes.InsertDomainHistory (env : Env) (d : models.DomainInfo) (w : World) :
    Writes w (database.InsertDomainHistory env d w).2 [] := by
  unfold database.InsertDomainHistory
  split <;> constructor <;> simp [World.emit, World.next, storeWrites]

theorem Writes.OnDomainChangeW (env : Env) (s : subscribers.SmtpSubscriber)
    (d o n : String) (w : World) :
    Writes w (subscribers.SmtpSubscriber.OnDomainChange env s d o n w) [] := by
  unfold subscribers.SmtpSubscriber.OnDomainChange
  dsimp only
  split <;> constructor <;> simp [World.emit, World.next, storeWrites]

theorem Writes.SmtpUpdateW (env : Env) (s : subscribers.SmtpSubscriber) (e : events.Event)
    (w : World) : Writes w (subscribers.SmtpSubscriber.Update env s e w) [] := by
  unfold subscribers.SmtpSubscriber.Update
  split_ifs
  · exact Writes.OnDomainChangeW _ _ _ _ _ _
  · exact Writes.OnDomainChangeW _ _ _ _ _ _
  · exact Writes.OnDomainChangeW _ _ _ _ _ _
  · exact Writes.reflW w

theorem Writes.notifyLoop (env : Env) (e : events.Event) (subs : List updater.Subscribers) :
    ∀ w : World, Writes w (subs.foldl (fun acc s => Subscribers.Update env s e acc) w) [] := by
  induction subs with
  | nil => intro w; exact Writes.reflW w
  | cons s rest ih =>
    intro w
    rw [List.foldl_cons]
    refine Writes.then_none ?_ (ih _)
    unfold Subscribers.Update
    exact (Writes.emit w (Effect.Update s e) rfl).then_none (Writes.SmtpUpdateW _ _ _ _)

theorem Writes.Notify (env : Env) (o : Observer) (e : events.Event) (w : World) :
    Writes w (o.Notify env e w) [] := by
  unfold Observer.Notify
  exact (Writes.emit w (Effect.Notify e) rfl).then_none
    (Writes.notifyLoop env e o.Subscribers _)

theorem Writes.changeBlock (env : Env) (o : Observer) (ty : events.EventType)
    (label name old new : String) (nd st : models.DomainInfo) (s : Bool × World) :
    Writes s.2 (changeBlock env o ty label name old new nd st s).2 [] := by
  unfold updater.changeBlock
  split
  · dsimp only
    exact ((Writes.nextW s.2).then_none (Writes.Notify env o _ _)).then_none
      (Writes.emit _ _ rfl)
  · exact Writes.reflW _

theorem Writes.insertAndLog (env : Env) (d : models.DomainInfo) (w : World) (pre : String) :
    Writes w
      (match (database.InsertDomainHistory env d w).1 with
        | some err_insert =>
          (database.InsertDomainHistory env d w).2.emit (Effect.log (pre ++ err_insert))
        | none => (database.InsertDomainHistory env d w).2) [] := by
  split
  · exact (Writes.InsertDomainHistory env d w).then_none (Writes.emit _ _ rfl)
  · exact Writes.InsertDomainHistory env d w

/-- Lines 112-172 of main call none of the four Update functions. -/
theorem Writes.compareAndStore (env : Env) (o : Observer) (domain : models.DomainInfo)
    (st : Except String models.DomainInfo) (dm sp ns : String) (nd : models.DomainInfo)
    (w : World) : Writes w (compareAndStore env o domain st dm sp ns nd w) [] := by
  unfold updater.compareAndStore
  cases st with
  | error e =>
    dsimp only
    have := Writes.insertAndLog env nd w
      ("Error trying to insert first history for domain " ++ domain.Name ++ ": ")
    exact this
  | ok stored =>
    dsimp only
    have h1 := Writes.changeBlock env o events.EventTypeDmarc "DMARC" domain.Name
      stored.Dmarc dm nd stored (false, w)
    have h2 := h1.then_none (Writes.changeBlock env o events.EventTypeSpf "SPF" domain.Name
      stored.Spf sp nd stored _)
    have h3 := h2.then_none (Writes.changeBlock env o events.EventTypeNameservers
      "Nameservers" domain.Name stored.Nameservers ns nd stored _)
    split
    · have := h3.then_none (Writes.insertAndLog env nd _
        ("Error trying to insert history for domain " ++ domain.Name ++ ": "))
      exact this
    · exact h3


theorem Writes.UpdateNSW (env : Env) (n v : String) (w : World) :
    Writes w (database.UpdateNS env n v w).2 [Effect.UpdateNS n v] :=
  Writes.updateRowsW env n _ _ w rfl

theorem Writes.UpdateDMARCW (env : Env) (n v : String) (w : World) :
    Writes w (database.UpdateDMARC env n v w).2 [Effect.UpdateDMARC n v] :=
  Writes.updateRowsW env n _ _ w rfl

theorem Writes.UpdateSPFW (env : Env) (n v : String) (w : World) :
    Writes w (database.UpdateSPF env n v w).2 [Effect.UpdateSPF n v] :=
  Writes.updateRowsW env n _ _ w rfl

theorem Writes.UpdateWhoisW (env : Env) (n v : String) (w : World) :
    Writes w (database.UpdateWhois env n v w).2 [Effect.UpdateWhois n v] :=
  Writes.updateRowsW env n _ _ w rfl

/-- The map of GetAllDatesFromWhois is empty exactly when the fetch failed. -/
theorem whoisWrites_eq (env : Env) (n : String) (w : World) (l : List Effect) :
    (if (dnsquery.GetAllDatesFromWhois env n w).1.length > 0 then l else []) =
      (match env.whois n with
        | Except.error _ => []
        | Except.ok _ => l) := by
  unfold dnsquery.GetAllDatesFromWhois dnsquery.GetWhois dnsquery.whoisImpl
  dsimp only
  cases env.whois n with
  | error e => simp
  | ok r => simp

/-- The calls of the four Update functions in lines 53-96 of main. -/
theorem fetchAndWriteBack_writes (env : Env) (domain : models.DomainInfo) (w0 : World) :
    Writes w0 (fetchAndWriteBack env domain w0).w
      ([Effect.UpdateNS domain.Name (nsRecordcomma (dnsquery.GetNSRecords env domain.Name)),
        Effect.UpdateDMARC domain.Name (dnsquery.GetDMARCRecord env domain.Name).1,
        Effect.UpdateSPF domain.Name (dnsquery.GetSPFRecord env domain.Name).1] ++
        (match env.whois domain.Name with
          | Except.error _ => []
          | Except.ok _ =>
            [Effect.UpdateWhois domain.Name (fetchAndWriteBack env domain w0).whois])) := by
  have qm : ∀ (w : World) (r : Except String (List String)) (m : String), Writes w
      (match r with
      | Except.error _ => w.emit (Effect.log m)
      | Except.ok _ => w) [] := by
    intro w r m
    split
    · exact Writes.emit _ _ rfl
    · exact Writes.reflW _
  have qi : ∀ (w : World) (c : Bool) (m : String), Writes w
      (if c = true then w.emit (Effect.log m) else w) [] := by
    intro w c m
    split
    · exact Writes.emit _ _ rfl
    · exact Writes.reflW _
  have qr : ∀ (r : Except String models.DomainInfo × World) (m : String), Writes r.2
      (match r.1 with
      | Except.error _ => r.2.emit (Effect.log m)
      | Except.ok _ => r.2) [] := by
    intro r m
    split
    · exact Writes.emit _ _ rfl
    · exact Writes.reflW _
  have qj : ∀ (r : List (String × String) × World) (s : String),
      s = (if r.1.length > 0 then
        ((joinMapByColon env r.1 r.2).1,
          (database.UpdateWhois env domain.Name (joinMapByColon env r.1 r.2).1
            (joinMapByColon env r.1 r.2).2).2)
      else ("", r.2)).1 →
      Writes r.2
        (if r.1.length > 0 then
          ((joinMapByColon env r.1 r.2).1,
            (database.UpdateWhois env domain.Name (joinMapByColon env r.1 r.2).1
              (joinMapByColon env r.1 r.2).2).2)
        else ("", r.2)).2
        (if r.1.length > 0 then [Effect.UpdateWhois domain.Name s] else []) := by
    intro r s hs
    by_cases hl : r.1.length > 0
    · rw [if_pos hl] at hs
      rw [if_pos hl, if_pos hl, hs]
      exact Writes.none_then (Writes.nextW _) (Writes.UpdateWhoisW env domain.Name _ _)
    · rw [if_neg hl, if_neg hl]
      exact Writes.reflW _
  have h0 := Writes.GetDomainInfoHistoryW env domain.Name w0
  have h1 := h0.then_none
    (Writes.emit _ (Effect.log (Sprintln ["Domain being checked: ", domain.Name])) rfl)
  have h2 := h1.then_none (qm _ (dnsquery.GetNSRecords env domain.Name)
    (Sprintln ["Domain NS Record not found ", domain.Name]))
  have h3 := h2.none_then (Writes.UpdateNSW env domain.Name
    (nsRecordcomma (dnsquery.GetNSRecords env domain.Name)) _)
  have h4 := h3.then_none (qi _ (dnsquery.GetDMARCRecord env domain.Name).2.isSome
    (Sprintln ["Domain DMARC Record not found ", domain.Name]))
  have h5 := h4.transW (Writes.UpdateDMARCW env domain.Name
    (dnsquery.GetDMARCRecord env domain.Name).1 _)
  have h6 := h5.then_none (qi _ (dnsquery.GetSPFRecord env domain.Name).2.isSome
    (Sprintln ["Domain SPF Record not found ", domain.Name]))
  have h7 := h6.transW (Writes.UpdateSPFW env domain.Name
    (dnsquery.GetSPFRecord env domain.Name).1 _)
  have h8 := h7.then_none (Writes.GetDomainInfoW env domain.Name _)
  have h9 := h8.then_none
    (qr _ (Sprintln ["Error geting info for domain Name:", domain.Name]))
  have h10 := h9.then_none (Writes.GetAllDatesFromWhoisW env domain.Name _)
  have h11 := h10.transW (qj _ (fetchAndWriteBack env domain w0).whois (by rfl))
  rw [whoisWrites_eq] at h11
  exact h11

/-- The calls of the four Update functions in one whole iteration. -/
theorem mainLoopBody_writes (env : Env) (o : Observer) (domain : models.DomainInfo)
    (w0 : World) :
    Writes w0 (mainLoopBody env o domain w0).world
      ([Effect.UpdateNS domain.Name (nsRecordcomma (dnsquery.GetNSRecords env domain.Name)),
        Effect.UpdateDMARC domain.Name (dnsquery.GetDMARCRecord env domain.Name).1,
        Effect.UpdateSPF domain.Name (dnsquery.GetSPFRecord env domain.Name).1] ++
        (match env.whois domain.Name with
          | Except.error _ => []
          | Except.ok _ =>
            [Effect.UpdateWhois domain.Name (fetchAndWriteBack env domain w0).whois])) := by
  refine (fetchAndWriteBack_writes env domain w0).then_none ?_
  unfold mainLoopBody
  dsimp only
  split
  · exact Writes.reflW _
  · exact (Writes.nextW _).then_none (Writes.compareAndStore _ _ _ _ _ _ _ _ _)

/-- C11, counterexample: the WHOIS fetch for new.com fails, and the iteration
calls UpdateNS, UpdateDMARC and UpdateSPF but never UpdateWhois, not with the
empty string either. -/
theorem C11_counterexample :
    scenario.env.whois "new.com" = Except.error "whois: connect timeout" ∧
    storeWrites (newEffects (scenario.world [])
        (mainLoopBody scenario.env scenario.observer scenario.newCom
          (scenario.world [])).world) =
      [Effect.UpdateNS "new.com" ", ns1.new.com", Effect.UpdateDMARC "new.com" "",
        Effect.UpdateSPF "new.com" "v=spf1 ~all"] ∧
    Effect.UpdateWhois "new.com" "" ∉
      (mainLoopBody scenario.env scenario.observer scenario.newCom
        (scenario.world [])).world.trace := by
  refine ⟨rfl, by decide, by decide⟩

/-- C11, amended: in every iteration of the loop of main, whatever the
fetches return and whatever the store held, UpdateNS, UpdateDMARC and
UpdateSPF are each called exactly once, with the nameserver string, the DMARC
record and the SPF record just fetched, each the empty string when its fetch
failed.  UpdateWhois is called exactly once, with the WHOIS summary, when the
WHOIS fetch succeeded, and not at all when it failed.  There is no other call
of these four functions. -/
theorem C11_write_back (env : Env) (o : Observer) (domain : models.DomainInfo) (w0 : World) :
    storeWrites (newEffects w0 (mainLoopBody env o domain w0).world) =
      ([Effect.UpdateNS domain.Name (nsRecordcomma (dnsquery.GetNSRecords env domain.Name)),
        Effect.UpdateDMARC domain.Name (dnsquery.GetDMARCRecord env domain.Name).1,
        Effect.UpdateSPF domain.Name (dnsquery.GetSPFRecord env domain.Name).1] ++
        (match env.whois domain.Name with
          | Except.error _ => []
          | Except.ok _ =>
            [Effect.UpdateWhois domain.Name (fetchAndWriteBack env domain w0).whois])) ∧
    (∀ err, dnsquery.GetNSRecords env domain.Name = Except.error err →
      nsRecordcomma (dnsquery.GetNSRecords env domain.Name) = "") ∧
    ((dnsquery.GetDMARCRecord env domain.Name).2 ≠ none →
      (dnsquery.GetDMARCRecord env domain.Name).1 = "") ∧
    ((dnsquery.GetSPFRecord env domain.Name).2 ≠ none →
      (dnsquery.GetSPFRecord env domain.Name).1 = "") ∧
    (∃ t : Nat, (fetchAndWriteBack env domain w0).whois =
      (if (dnsquery.GetAllDatesFromWhois env domain.Name w0).1.length > 0 then
        stringsJoin ((env.mapRange t (dnsquery.GetAllDatesFromWhois env domain.Name w0).1).map
          (fun kv => kv.1 ++ ":" ++ kv.2)) ", "
      else "")) := by
  refine ⟨storeWrites_newEffects _ _ _ (mainLoopBody_writes env o domain w0), ?_, ?_, ?_,
    fetchAndWriteBack_whois env domain w0⟩
  · intro err h
    rw [h]
    rfl
  · unfold dnsquery.GetDMARCRecord
    dsimp only
    split
    · intro _; rfl
    · split
      · intro h; exact absurd rfl h
      · intro _; rfl
  · unfold dnsquery.GetSPFRecord
    split
    · intro _; rfl
    · split
      · intro h; exact absurd rfl h
      · intro _; rfl

theorem C11_write_back_witness :
    storeWrites (newEffects (scenario.world [scenario.storedSame])
        (mainLoopBody scenario.env scenario.observer scenario.exampleCom
          (scenario.world [scenario.storedSame])).world) =
      [Effect.UpdateNS "example.com" ", ns1.example.com., ns2.example.com.",
        Effect.UpdateDMARC "example.com" "v=DMARC1; p=none",
        Effect.UpdateSPF "example.com" "v=spf1 include:_spf.example.com ~all",
        Effect.UpdateWhois "example.com"
          ("creationDate:2020-01-01T00:00:00Z, expirationDate:2026-10-30T12:00:00Z, " ++
            "registrar:Example Registrar")] := by
  rw [(C11_write_back scenario.env scenario.observer scenario.exampleCom
    (scenario.world [scenario.storedSame])).1]
  decide

/-! ## The record lookups -/

/-- The range loop that returns the first record with a given start: find?
on a list split at its first such record. -/
theorem find_first_with (p : String → Bool) (l1 l2 : List String) (r : String)
    (h1 : ∀ x ∈ l1, p x = false) (hr : p r = true) :
    (l1 ++ r :: l2).find? p = some r := by
  induction l1 with
  | nil => simp [List.find?_cons, hr]
  | cons x xs ih =>
    have hx : p x = false := h1 x (List.mem_cons_self _ _)
    rw [List.cons_append, List.find?_cons, hx]
    exact ih (fun y hy => h1 y (List.mem_cons_of_mem _ hy))

theorem find_none_with (p : String → Bool) (l : List String)
    (h : ∀ x ∈ l, p x = false) : l.find? p = none := by
  rw [List.find?_eq_none]
  intro x hx
  simp [h x hx]

/-- C12: GetSPFRecord(domain) returns a lookup error unchanged with the empty
string; for a list of TXT records returned by the lookup it returns the first
record that starts with "v=spf1" with a nil error, and the empty string with
a non-nil error when no record starts with "v=spf1". -/
theorem C12_GetSPFRecord (env : Env) (domain : String) :
    (∀ err, env.lookupTXTImpl domain = Except.error err →
      dnsquery.GetSPFRecord env domain = ("", some err)) ∧
    (∀ records, env.lookupTXTImpl domain = Except.ok records →
      (∀ l1 r l2, records = l1 ++ r :: l2 →
        (∀ x ∈ l1, stringsHasPrefix x "v=spf1" = false) →
        stringsHasPrefix r "v=spf1" = true →
        dnsquery.GetSPFRecord env domain = (r, none)) ∧
      ((∀ x ∈ records, stringsHasPrefix x "v=spf1" = false) →
        ∃ e, dnsquery.GetSPFRecord env domain = ("", some e))) := by
  refine ⟨?_, ?_⟩
  · intro err h
    simp [dnsquery.GetSPFRecord, dnsquery.GetTXTRecords, h]
  · intro records h
    refine ⟨?_, ?_⟩
    · intro l1 r l2 hsplit h1 hr
      have hf := find_first_with (fun record => stringsHasPrefix record "v=spf1") l1 l2 r h1 hr
      rw [← hsplit] at hf
      simp only [dnsquery.GetSPFRecord, dnsquery.GetTXTRecords, h, hf]
    · intro hnone
      have hf := find_none_with (fun record => stringsHasPrefix record "v=spf1") records hnone
      exact ⟨"no SPF record found for " ++ domain,
        by simp only [dnsquery.GetSPFRecord, dnsquery.GetTXTRecords, h, hf]⟩

theorem C12_GetSPFRecord_witness :
    scenario.env.lookupTXTImpl "example.com" =
      Except.ok (["google-site-verification=abc"] ++
        "v=spf1 include:_spf.example.com ~all" :: []) ∧
    (∀ x ∈ ["google-site-verification=abc"], stringsHasPrefix x "v=spf1" = false) ∧
    stringsHasPrefix "v=spf1 include:_spf.example.com ~all" "v=spf1" = true ∧
    dnsquery.GetSPFRecord scenario.env "example.com" =
      ("v=spf1 include:_spf.example.com ~all", none) ∧
    scenario.env.lookupTXTImpl "unknown.example" = Except.ok [] ∧
    ∃ e, dnsquery.GetSPFRecord scenario.env "unknown.example" = ("", some e) :=
  ⟨rfl, by decide, by decide,
    ((C12_GetSPFRecord scenario.env "example.com").2 _ rfl).1
      ["google-site-verification=abc"] "v=spf1 include:_spf.example.com ~all" [] rfl
      (by decide) (by decide),
    rfl,
    ((C12_GetSPFRecord scenario.env "unknown.example").2 [] rfl).2 (by simp)⟩

theorem dmarc_name_ne (d : String) : "_dmarc." ++ d ≠ d := by
  intro h
  have := congrArg String.length h
  simp [String.length_append] at this
  revert this
  decide

/-- C13: GetDMARCRecord(d) depends on the TXT lookup only through the answer
for the name "_dmarc." + d, which is never d; from the records returned for
that name it returns the first one that starts with "v=DMARC1" with a nil
error, and the empty string with a non-nil error when none does.
GetDKIMRecord(d, sel) does the same with the name sel + "._domainkey." + d
and the start "v=DKIM1". -/
theorem C13_GetDMARCRecord_GetDKIMRecord (env : Env) (d sel : String) :
    ((∀ env2 : Env, env2.lookupTXTImpl ("_dmarc." ++ d) = env.lookupTXTImpl ("_dmarc." ++ d) →
        dnsquery.GetDMARCRecord env2 d = dnsquery.GetDMARCRecord env d) ∧
      "_dmarc." ++ d ≠ d ∧
      (∀ records, env.lookupTXTImpl ("_dmarc." ++ d) = Except.ok records →
        (∀ l1 r l2, records = l1 ++ r :: l2 →
          (∀ x ∈ l1, stringsHasPrefix x "v=DMARC1" = false) →
          stringsHasPrefix r "v=DMARC1" = true →
          dnsquery.GetDMARCRecord env d = (r, none)) ∧
        ((∀ x ∈ records, stringsHasPrefix x "v=DMARC1" = false) →
          ∃ e, dnsquery.GetDMARCRecord env d = ("", some e)))) ∧
    ((∀ env2 : Env,
        env2.lookupTXTImpl (sel ++ "._domainkey." ++ d) =
          env.lookupTXTImpl (sel ++ "._domainkey." ++ d) →
        dnsquery.GetDKIMRecord env2 d sel = dnsquery.GetDKIMRecord env d sel) ∧
      (∀ records, env.lookupTXTImpl (sel ++ "._domainkey." ++ d) = Except.ok records →
        (∀ l1 r l2, records = l1 ++ r :: l2 →
          (∀ x ∈ l1, stringsHasPrefix x "v=DKIM1" = false) →
          stringsHasPrefix r "v=DKIM1" = true →
          dnsquery.GetDKIMRecord env d sel = (r, none)) ∧
        ((∀ x ∈ records, stringsHasPrefix x "v=DKIM1" = false) →
          ∃ e, dnsquery.GetDKIMRecord env d sel = ("", some e)))) := by
  refine ⟨⟨?_, dmarc_name_ne d, ?_⟩, ⟨?_, ?_⟩⟩
  · intro env2 h
    simp only [dnsquery.GetDMARCRecord, dnsquery.GetTXTRecords, h]
  · intro records h
    refine ⟨?_, ?_⟩
    · intro l1 r l2 hsplit h1 hr
      have hf := find_first_with (fun record => stringsHasPrefix record "v=DMARC1") l1 l2 r
        h1 hr
      rw [← hsplit] at hf
      simp only [dnsquery.GetDMARCRecord, dnsquery.GetTXTRecords, h, hf]
    · intro hnone
      have hf := find_none_with (fun record => stringsHasPrefix record "v=DMARC1") records hnone
      exact ⟨"no DMARC record found for " ++ d,
        by simp only [dnsquery.GetDMARCRecord, dnsquery.GetTXTRecords, h, hf]⟩
  · intro env2 h
    simp only [dnsquery.GetDKIMRecord, dnsquery.GetTXTRecords, h]
  · intro records h
    refine ⟨?_, ?_⟩
    · intro l1 r l2 hsplit h1 hr
      have hf := find_first_with (fun record => stringsHasPrefix record "v=DKIM1") l1 l2 r
        h1 hr
      rw [← hsplit] at hf
      simp only [dnsquery.GetDKIMRecord, dnsquery.GetTXTRecords, h, hf]
    · intro hnone
      have hf := find_none_with (fun record => stringsHasPrefix record "v=DKIM1") records hnone
      exact ⟨"no DKIM record found for " ++ d ++ " with selector " ++ sel,
        by simp only [dnsquery.GetDKIMRecord, dnsquery.GetTXTRecords, h, hf]⟩

theorem C13_GetDMARCRecord_GetDKIMRecord_witness :
    scenario.envMail.lookupTXTImpl ("_dmarc." ++ "example.com") =
      Except.ok ([] ++ "v=DMARC1; p=none; rua=mailto:postmaster@example.com" :: []) ∧
    dnsquery.GetDMARCRecord scenario.envMail "example.com" =
      ("v=DMARC1; p=none; rua=mailto:postmaster@example.com", none) ∧
    scenario.envMail.lookupTXTImpl ("selector" ++ "._domainkey." ++ "example.com") =
      Except.ok ([] ++ "v=DKIM1; k=rsa; p=abcd" :: []) ∧
    dnsquery.GetDKIMRecord scenario.envMail "example.com" "selector" =
      ("v=DKIM1; k=rsa; p=abcd", none) ∧
    (∃ e, dnsquery.GetDMARCRecord scenario.env "new.com" = ("", some e)) :=
  ⟨rfl,
    (((C13_GetDMARCRecord_GetDKIMRecord scenario.envMail "example.com" "selector").1.2.2
      _ rfl).1 [] "v=DMARC1; p=none; rua=mailto:postmaster@example.com" [] rfl
      (by simp) (by decide)),
    rfl,
    (((C13_GetDMARCRecord_GetDKIMRecord scenario.envMail "example.com" "selector").2.2
      _ rfl).1 [] "v=DKIM1; k=rsa; p=abcd" [] rfl (by simp) (by decide)),
    ((C13_GetDMARCRecord_GetDKIMRecord scenario.env "new.com" "selector").1.2.2
      [] rfl).2 (by simp)⟩

/-! ## The WHOIS patterns -/

theorem afterLiteral_first (lit tail : List Char) :
    ∀ pre : List Char,
      (∀ k, k < pre.length → lit.isPrefixOf ((pre ++ lit ++ tail).drop k) = false) →
      afterLiteral lit (pre ++ lit ++ tail) = some tail := by
  intro pre
  induction pre with
  | nil =>
    intro _
    have hp : lit.isPrefixOf (lit ++ tail) = true := by
      rw [List.isPrefixOf_iff_prefix]
      exact List.prefix_append _ _
    cases hl : lit ++ tail with
    | nil =>
      have h1 : lit = [] := (List.append_eq_nil.mp hl).1
      have h2 : tail = [] := (List.append_eq_nil.mp hl).2
      simp [afterLiteral, h1, h2]
    | cons c cs =>
      rw [hl] at hp
      simp only [List.nil_append, hl, afterLiteral, hp, if_true]
      rw [← hl, List.drop_left]
  | cons p ps ih =>
    intro h
    have h0 : lit.isPrefixOf (p :: (ps ++ lit ++ tail)) = false := by
      have := h 0 (by simp)
      simpa using this
    have hrest : ∀ k, k < ps.length →
        lit.isPrefixOf ((ps ++ lit ++ tail).drop k) = false := by
      intro k hk
      have := h (k + 1) (by simp; omega)
      simpa using this
    have e : p :: ps ++ lit ++ tail = p :: (ps ++ lit ++ tail) := by simp
    rw [e, afterLiteral, h0]
    simp only [Bool.false_eq_true, if_false]
    exact ih hrest

theorem reSpace_unicodeIsSpace (c : Char) (h : reSpace c = true) : unicodeIsSpace c = true := by
  simp only [reSpace, Bool.or_eq_true, decide_eq_true_eq] at h
  simp only [unicodeIsSpace, Bool.or_eq_true, decide_eq_true_eq]
  tauto

/-- On a line that is not blank the greedy \s* stays on the line: the
submatch is the rest of the line without its leading white space. -/
theorem capture_on_line (tail : List Char) :
    (∃ c ∈ restOfLine tail, reSpace c = false) →
    (tail.dropWhile reSpace).takeWhile (fun c => c != '\n') =
      (restOfLine tail).dropWhile reSpace := by
  induction tail with
  | nil => intro h; simp [restOfLine] at h
  | cons x xs ih =>
    intro h
    by_cases hx : x = '\n'
    · subst hx
      simp [restOfLine] at h
    · have hq : (x != '\n') = true := by simpa using hx
      by_cases hs : reSpace x = true
      · have hrest : ∃ c ∈ restOfLine xs, reSpace c = false := by
          obtain ⟨c, hc, hcs⟩ := h
          simp only [restOfLine, List.takeWhile_cons, hq, if_true, List.mem_cons] at hc
          rcases hc with rfl | hc
          · rw [hs] at hcs; exact absurd hcs (by simp)
          · exact ⟨c, hc, hcs⟩
        simp only [restOfLine, List.takeWhile_cons, hq, if_true, List.dropWhile_cons, hs]
        exact ih hrest
      · simp [restOfLine, List.takeWhile_cons, hq, List.dropWhile_cons, hs]

theorem dropWhile_space_reSpace (l : List Char) :
    (l.dropWhile reSpace).dropWhile unicodeIsSpace = l.dropWhile unicodeIsSpace := by
  induction l with
  | nil => rfl
  | cons x xs ih =>
    by_cases hs : reSpace x = true
    · simp [List.dropWhile_cons, hs, reSpace_unicodeIsSpace x hs, ih]
    · simp [List.dropWhile_cons, hs]

theorem mem_dropWhile_of_not (p : Char → Bool) (c : Char) (hc : p c = false) :
    ∀ l : List Char, c ∈ l → c ∈ l.dropWhile p := by
  intro l
  induction l with
  | nil => intro h; exact h
  | cons x xs ih =>
    intro h
    by_cases hx : p x = true
    · rcases List.mem_cons.mp h with rfl | h'
      · rw [hx] at hc; exact absurd hc (by simp)
      · simp only [List.dropWhile_cons, hx, if_true]
        exact ih h'
    · simp only [List.dropWhile_cons, hx]
      exact h

/-- TrimSpace of the submatch is TrimSpace of the rest of the line, and is
not empty, when the line is not blank. -/
theorem trim_capture (tail : List Char) (h : NonBlank (restOfLine tail)) :
    stringsTrimSpace
        (String.mk ((tail.dropWhile reSpace).takeWhile (fun c => c != '\n'))) =
      stringsTrimSpace (String.mk (restOfLine tail)) ∧
    stringsTrimSpace (String.mk (restOfLine tail)) ≠ "" := by
  obtain ⟨c, hc, hcs⟩ := h
  have hre : reSpace c = false := by
    cases hr : reSpace c with
    | false => rfl
    | true => rw [reSpace_unicodeIsSpace c hr] at hcs; exact absurd hcs (by simp)
  refine ⟨?_, ?_⟩
  · rw [capture_on_line tail ⟨c, hc, hre⟩]
    simp only [stringsTrimSpace, dropWhile_space_reSpace]
  · intro he
    have hmem : c ∈ ((restOfLine tail).dropWhile unicodeIsSpace).reverse.dropWhile
        unicodeIsSpace := by
      apply mem_dropWhile_of_not _ _ hcs
      rw [List.mem_reverse]
      exact mem_dropWhile_of_not _ _ hcs _ hc
    have hd := congrArg String.data he
    simp only [stringsTrimSpace] at hd
    have hnil : (((restOfLine tail).dropWhile unicodeIsSpace).reverse.dropWhile
        unicodeIsSpace).reverse = [] := hd
    rw [List.reverse_eq_nil_iff] at hnil
    rw [hnil] at hmem
    exact absurd hmem (List.not_mem_nil _)

/-- FindStringSubmatch followed by TrimSpace, at the first occurrence of the
literal, when the rest of its line is not blank. -/
theorem submatch_first (lit text : String) (pre tail : List Char)
    (hocc : FirstOccurrence lit.data pre tail text.data)
    (hline : NonBlank (restOfLine tail)) :
    ∃ m, FindStringSubmatch lit text = some m ∧
      stringsTrimSpace m = stringsTrimSpace (String.mk (restOfLine tail)) := by
  obtain ⟨htext, hfirst⟩ := hocc
  have ha : afterLiteral lit.data text.data = some tail := by
    rw [htext]
    exact afterLiteral_first lit.data tail pre (by rw [← htext]; exact hfirst)
  refine ⟨String.mk ((tail.dropWhile reSpace).takeWhile (fun c => c != '\n')), ?_,
    (trim_capture tail hline).1⟩
  simp [FindStringSubmatch, ha]


theorem afterLiteral_none (lit : List Char) :
    ∀ text : List Char, NoOccurrence lit text → afterLiteral lit text = none := by
  intro text
  induction text with
  | nil =>
    intro h
    have h0 := h 0 (by simp)
    have hl : lit ≠ [] := by
      intro hl
      rw [hl] at h0
      simp at h0
    simp [afterLiteral, hl]
  | cons c cs ih =>
    intro h
    have h0 : lit.isPrefixOf (c :: cs) = false := by
      have := h 0 (by simp)
      simpa using this
    have hrest : NoOccurrence lit cs := by
      intro k hk
      have := h (k + 1) (by simp; omega)
      simpa using this
    rw [afterLiteral, h0]
    simp only [Bool.false_eq_true, if_false]
    exact ih hrest

theorem submatch_none (lit text : String) (h : NoOccurrence lit.data text.data) :
    FindStringSubmatch lit text = none := by
  simp [FindStringSubmatch, afterLiteral_none lit.data text.data h]

/-- C14: for a WHOIS text fetched without error, GetAllDatesFromWhois returns
a map with exactly the entries creationDate, expirationDate and registrar,
and its expirationDate entry is the string GetExpirationDate returns, with a
nil error.  When the first occurrence of "Creation Date:" (of "Registrar:")
is followed on its line by a value that is not blank, the creationDate
(registrar) entry is that rest of the line with the surrounding white space
trimmed, and is not empty.  The expirationDate entry is taken the same way
from the first occurrence of "Registry Expiry Date:"; when that literal does
not occur, from "Registrar Registration Expiration Date:"; when neither
occurs, from "Expiration Date:". -/
theorem C14_GetAllDatesFromWhois (env : Env) (domain : String) (w : World) (text : String)
    (hwhois : env.whois domain = Except.ok text) :
    ∃ c e r : String,
      (dnsquery.GetAllDatesFromWhois env domain w).1 =
        [("creationDate", c), ("expirationDate", e), ("registrar", r)] ∧
      (dnsquery.GetExpirationDate env domain w).1 = (e, none) ∧
      (∀ pre tail, FirstOccurrence "Creation Date:".data pre tail text.data →
        NonBlank (restOfLine tail) →
        c = stringsTrimSpace (String.mk (restOfLine tail)) ∧ c ≠ "") ∧
      (∀ pre tail, FirstOccurrence "Registrar:".data pre tail text.data →
        NonBlank (restOfLine tail) →
        r = stringsTrimSpace (String.mk (restOfLine tail)) ∧ r ≠ "") ∧
      (∀ pre tail, FirstOccurrence "Registry Expiry Date:".data pre tail text.data →
        NonBlank (restOfLine tail) →
        e = stringsTrimSpace (String.mk (restOfLine tail)) ∧ e ≠ "") ∧
      (NoOccurrence "Registry Expiry Date:".data text.data →
        ∀ pre tail,
          FirstOccurrence "Registrar Registration Expiration Date:".data pre tail text.data →
          NonBlank (restOfLine tail) →
          e = stringsTrimSpace (String.mk (restOfLine tail)) ∧ e ≠ "") ∧
      (NoOccurrence "Registry Expiry Date:".data text.data →
        NoOccurrence "Registrar Registration Expiration Date:".data text.data →
        ∀ pre tail, FirstOccurrence "Expiration Date:".data pre tail text.data →
          NonBlank (restOfLine tail) →
          e = stringsTrimSpace (String.mk (restOfLine tail)) ∧ e ≠ "") := by
  refine ⟨(match FindStringSubmatch "Creation Date:" text with
      | some m => stringsTrimSpace m
      | none => ""),
    dnsquery.firstExpiry text
      ["Registry Expiry Date:", "Registrar Registration Expiration Date:", "Expiration Date:"],
    (match FindStringSubmatch "Registrar:" text with
      | some m => stringsTrimSpace m
      | none => ""), ?_, ?_, ?_, ?_, ?_, ?_, ?_⟩
  · simp only [dnsquery.GetAllDatesFromWhois, dnsquery.GetWhois, dnsquery.whoisImpl, hwhois]
  · simp only [dnsquery.GetExpirationDate, dnsquery.GetWhois, dnsquery.whoisImpl, hwhois]
  · intro pre tail hocc hline
    obtain ⟨m, hm, ht⟩ := submatch_first "Creation Date:" text pre tail hocc hline
    rw [hm]
    dsimp only
    exact ⟨ht, by rw [ht]; exact (trim_capture tail hline).2⟩
  · intro pre tail hocc hline
    obtain ⟨m, hm, ht⟩ := submatch_first "Registrar:" text pre tail hocc hline
    rw [hm]
    dsimp only
    exact ⟨ht, by rw [ht]; exact (trim_capture tail hline).2⟩
  · intro pre tail hocc hline
    obtain ⟨m, hm, ht⟩ := submatch_first "Registry Expiry Date:" text pre tail hocc hline
    simp only [dnsquery.firstExpiry, hm]
    exact ⟨ht, by rw [ht]; exact (trim_capture tail hline).2⟩
  · intro hno pre tail hocc hline
    obtain ⟨m, hm, ht⟩ :=
      submatch_first "Registrar Registration Expiration Date:" text pre tail hocc hline
    simp only [dnsquery.firstExpiry, submatch_none "Registry Expiry Date:" text hno, hm]
    exact ⟨ht, by rw [ht]; exact (trim_capture tail hline).2⟩
  · intro hno1 hno2 pre tail hocc hline
    obtain ⟨m, hm, ht⟩ := submatch_first "Expiration Date:" text pre tail hocc hline
    simp only [dnsquery.firstExpiry, submatch_none "Registry Expiry Date:" text hno1,
      submatch_none "Registrar Registration Expiration Date:" text hno2, hm]
    exact ⟨ht, by rw [ht]; exact (trim_capture tail hline).2⟩

theorem C14_GetAllDatesFromWhois_witness :
    scenario.env.whois "example.com" =
      Except.ok ("Registrar: Example Registrar\nRegistry Expiry Date: 2026-10-30T12:00:00Z\n" ++
        "Creation Date: 2020-01-01T00:00:00Z") ∧
    FirstOccurrence "Registry Expiry Date:".data "Registrar: Example Registrar\n".data
      " 2026-10-30T12:00:00Z\nCreation Date: 2020-01-01T00:00:00Z".data
      ("Registrar: Example Registrar\nRegistry Expiry Date: 2026-10-30T12:00:00Z\n" ++
        "Creation Date: 2020-01-01T00:00:00Z").data ∧
    NonBlank (restOfLine " 2026-10-30T12:00:00Z\nCreation Date: 2020-01-01T00:00:00Z".data) ∧
    (dnsquery.GetExpirationDate scenario.env "example.com" (scenario.world [])).1 =
      (stringsTrimSpace (String.mk
        (restOfLine " 2026-10-30T12:00:00Z\nCreation Date: 2020-01-01T00:00:00Z".data)), none) ∧
    stringsTrimSpace (String.mk
        (restOfLine " 2026-10-30T12:00:00Z\nCreation Date: 2020-01-01T00:00:00Z".data)) =
      "2026-10-30T12:00:00Z" ∧
    (dnsquery.GetAllDatesFromWhois scenario.env "example.com" (scenario.world [])).1 =
      [("creationDate", "2020-01-01T00:00:00Z"), ("expirationDate", "2026-10-30T12:00:00Z"),
        ("registrar", "Example Registrar")] :=
  ⟨rfl, by decide, by decide, by
    obtain ⟨c, e, r, _, hexp, _, _, hE, _, _⟩ := C14_GetAllDatesFromWhois scenario.env
      "example.com" (scenario.world [])
      ("Registrar: Example Registrar\nRegistry Expiry Date: 2026-10-30T12:00:00Z\n" ++
        "Creation Date: 2020-01-01T00:00:00Z") rfl
    rw [hexp, (hE "Registrar: Example Registrar\n".data
      " 2026-10-30T12:00:00Z\nCreation Date: 2020-01-01T00:00:00Z".data (by decide)
      (by decide)).1],
    by decide, by decide⟩

end DomainToolUpdater
